import Mathlib

/-!
Shallow embedding of the resender (src/tsproto/src/resend.rs) and of the
audio receive pipeline (src/tsclientlib/src/audio.rs) of tsclientlib-rs,
together with proofs about the claims of the specification.

Modelling conventions:
* machine integers are Nat with explicit reduction mod 2^16 (u16) and
  mod 2^32 (u32) exactly where the Rust code wraps;
* tokio Instants and Durations are Nat nanoseconds; Instant - Duration and
  Duration - Duration use truncated Nat subtraction (the Rust versions panic
  on underflow, theorems carry the non-underflow bounds as hypotheses);
* BTreeMaps are key-sorted association lists, BinaryHeaps are lists with an
  explicit fold computing a maximal element;
* the CUBIC window get_window() is 32-bit float arithmetic and is kept
  abstract: functions that consult it take the computed window as a Nat
  argument (its final clamp is modelled by clampWindow below);
* fallible code returns Except, carrying the mutated state in the error so
  that the state after an early `?` return is observable.
-/

set_option maxRecDepth 8192

namespace Ts

/-- u16 wrapping subtraction on mod-2^16 represented values:
u16wsub a b = a.wrapping_sub(b). -/
def u16wsub (a b : Nat) : Nat := (a % 65536 + 65536 - b % 65536) % 65536

/-- u16 wrapping addition. -/
def u16wadd (a b : Nat) : Nat := (a % 65536 + b % 65536) % 65536

/-- u32 wrapping_add(1). -/
def u32succ (g : Nat) : Nat := (g + 1) % 4294967296

/-- u32 wrapping_sub(1). -/
def u32pred (g : Nat) : Nat := (g + 4294967296 - 1) % 4294967296

/-- PartialPacketId from resend.rs: 32-bit generation plus 16-bit sequence. -/
structure PartialPacketId where
  generationId : Nat
  packetId : Nat
deriving DecidableEq, Repr

instance : Inhabited PartialPacketId := ⟨⟨0, 0⟩⟩

/-- impl Add<u16> for PartialPacketId: overflowing_add on packet_id,
wrapping_add(1) on generation_id when the sequence overflows. -/
def PartialPacketId.add (x : PartialPacketId) (rhs : Nat) : PartialPacketId :=
  { generationId :=
      if 65536 ≤ x.packetId % 65536 + rhs % 65536 then u32succ x.generationId
      else x.generationId
    packetId := u16wadd x.packetId rhs }

/-- impl Sub<u16> for PartialPacketId: overflowing_sub on packet_id,
wrapping_sub(1) on generation_id when the sequence borrows. -/
def PartialPacketId.sub (x : PartialPacketId) (rhs : Nat) : PartialPacketId :=
  { generationId :=
      if x.packetId % 65536 < rhs % 65536 then u32pred x.generationId
      else x.generationId
    packetId := u16wsub x.packetId rhs }

/-- Ord for PartialPacketId: lexicographic (generation_id, packet_id),
as a Bool-valued strict comparison. -/
def PartialPacketId.ltb (a b : PartialPacketId) : Bool :=
  decide (a.generationId < b.generationId ∨
    (a.generationId = b.generationId ∧ a.packetId < b.packetId))

/-- The three packet types that participate in reliable delivery. -/
inductive PType where
  | Init
  | Command
  | CommandLow
deriving DecidableEq, Repr

/-- Resender::packet_type_to_index. -/
def typeToIndex : PType → Nat
  | .Init => 0
  | .Command => 1
  | .CommandLow => 2

structure PacketId where
  packetType : PType
  part : PartialPacketId
deriving DecidableEq, Repr

/-- SendRecordId from resend.rs (last: most recent transmission instant,
tries: how often the packet was already sent). -/
structure SendRecordId where
  last : Nat
  tries : Nat
  id : PacketId
deriving DecidableEq, Repr

/-- SendRecord from resend.rs; the OutUdpPacket payload is opaque and
dropped from the model. -/
structure SendRecord where
  sent : Nat
  id : SendRecordId
deriving DecidableEq, Repr

inductive ResenderState where
  | Connecting
  | Connected
  | Disconnecting
  | Disconnected
deriving DecidableEq, Repr

structure ResendConfig where
  connectingTimeout : Nat
  normalTimeout : Nat
  disconnectTimeout : Nat
  srtt : Nat
  srttDev : Nat
deriving DecidableEq, Repr

/-- The Resender state. full_send_queue is the [BTreeMap; 3] of resend.rs,
modelled as a list (of length 3) of key-sorted lists so that the array
method .len() of the source is the list length of the model. The timer
fields (Delay futures) are not part of the model; poll_resend is modelled
as a function returning the action it takes. -/
structure Resender where
  sendQueue : List SendRecordId
  fullSendQueue : List (List SendRecord)
  sendQueueIndices : List PartialPacketId
  config : ResendConfig
  state : ResenderState
  wMax : Nat
  lastLoss : Nat
  noCongestionSince : Option Nat
  lastReceive : Nat
  lastSend : Nat
deriving DecidableEq, Repr

/-- The final clamp of Resender::get_window: the f32 CUBIC value is clamped
to [1, u16::max_value() / 2] = [1, 32767]. -/
def clampWindow (res : Int) : Nat :=
  if 32767 < res then 32767 else if res < 1 then 1 else res.toNat

/-- Resender::is_full: the source compares self.full_send_queue.len() —
the length of the [BTreeMap; 3] array itself, which is always 3 — with the
congestion window. -/
def Resender.isFull (r : Resender) (window : Nat) : Bool :=
  window ≤ r.fullSendQueue.length

/-- Resender::get_timeout. -/
def Resender.getTimeout (r : Resender) : Nat :=
  match r.state with
  | .Connecting => r.config.connectingTimeout
  | .Disconnecting | .Disconnected => r.config.disconnectTimeout
  | .Connected => r.config.normalTimeout

/-- Resender::update_srtt. Durations divide with truncation at nanosecond
granularity, exactly as Duration * k / m does. -/
def Resender.updateSrtt (r : Resender) (rtt : Nat) : Resender :=
  let diff := if r.config.srtt < rtt then rtt - r.config.srtt else r.config.srtt - rtt
  let dev := r.config.srttDev * 3 / 4 + diff / 4
  let newSrtt := r.config.srtt * 7 / 8 + rtt / 8
  { r with config := { r.config with srttDev := dev, srtt := newSrtt } }

/-- The part of tsproto Connection that the resender touches: the resender
itself, the emitted stream items (only AckPacket events are modelled) and
the codec's outgoing_p_ids table (modelled as a lookup function, standing
for con.codec.outgoing_p_ids[p_type.to_usize()]). -/
structure Connection where
  resender : Resender
  streamItems : List PacketId
  outgoingPId : PType → PartialPacketId

/-- The per-type BTreeMap of outstanding records. -/
def Connection.typeQueue (con : Connection) (t : PType) : List SendRecord :=
  con.resender.fullSendQueue.getD (typeToIndex t) []

/-- BTreeMap::remove on a key-sorted association list: returns the removed
record together with the remaining list, or none. -/
def removeRec : List SendRecord → PartialPacketId → Option (SendRecord × List SendRecord)
  | [], _ => none
  | r :: rs, key =>
    if r.id.id.part = key then some (r, rs)
    else
      match removeRec rs key with
      | none => none
      | some (rec2, rest) => some (rec2, r :: rest)

/-- The id reconstructed by ack_packet when the acked sequence number is not
the first entry of the queue: gen = first.gen + (p_id < first.packet_id ? 1 : 0). -/
def ackElseKey (first : SendRecord) (pId : Nat) : PartialPacketId :=
  { generationId :=
      if pId < first.id.id.part.packetId then u32succ first.id.id.part.generationId
      else first.id.id.part.generationId
    packetId := pId }

/-- The tail of ack_packet: `if let Some(rec) = queue.remove(&id)`; on a hit
the queue shrinks and srtt is fed when the record was sent exactly once. -/
def applyRemoval (con : Connection) (qi : Nat)
    (res : Option (SendRecord × List SendRecord)) (now : Nat) : Connection :=
  match res with
  | none => con
  | some (rec2, q) =>
    let con2 :=
      { con with resender :=
          { con.resender with fullSendQueue := con.resender.fullSendQueue.set qi q } }
    if rec2.id.tries = 1 then
      { con2 with resender := con2.resender.updateSrtt (now - rec2.sent) }
    else con2

/-- The id of the AckPacket stream item the first branch of ack_packet
emits: the next packet to expect (taken from the second queue entry, or
`p_id + 1` for Init, or the codec's next outgoing id) minus one, with the
borrow propagating into the generation. The u16 `p_id + 1` of the Init case
wraps here; a debug build would panic at 65535. -/
def ackEventId (con : Connection) (pType : PType) (pId : Nat)
    (rest : List SendRecord) : PacketId :=
  let gp : Nat × Nat :=
    match rest with
    | rec2 :: _ => (rec2.id.id.part.generationId, rec2.id.id.part.packetId)
    | [] =>
      if pType = PType.Init then (0, u16wadd pId 1)
      else ((con.outgoingPId pType).generationId, (con.outgoingPId pType).packetId)
  { packetType := pType
    part :=
      { generationId := if gp.2 % 65536 = 0 then u32pred gp.1 else gp.1
        packetId := u16wsub gp.2 1 } }

/-- Resender::ack_packet. -/
def ackPacket (con : Connection) (pType : PType) (pId : Nat) (now : Nat) : Connection :=
  let qi := typeToIndex pType
  let queue := con.typeQueue pType
  match queue with
  | [] => con
  | first :: rest =>
    if first.id.id.part.packetId = pId then
      let con2 :=
        { con with streamItems := con.streamItems ++ [ackEventId con pType pId rest] }
      applyRemoval con2 qi (removeRec queue first.id.id.part) now
    else
      applyRemoval con qi (removeRec queue (ackElseKey first pId)) now

/-- BTreeMap::insert on a key-sorted list (replaces an equal key). -/
def insertSorted : List SendRecord → SendRecord → List SendRecord
  | [], r => [r]
  | x :: xs, r =>
    if r.id.id.part.ltb x.id.id.part then r :: x :: xs
    else if r.id.id.part = x.id.id.part then r :: xs
    else x :: insertSorted xs r

/-- The fold of fill_up_send_queue that selects among the three iterator
heads: keeps the head whose `sent` is strictly greater than the best so
far (the source condition is min_time.map(|t| t < rec.sent).unwrap_or(true)),
together with its index. -/
def pickAcc (acc : Option (Nat × SendRecord)) (i : Nat) (h : Option SendRecord) :
    Option (Nat × SendRecord) :=
  match h with
  | none => acc
  | some r =>
    match acc with
    | none => some (i, r)
    | some (j, best) => if best.sent < r.sent then some (i, r) else some (j, best)

def pickNext (h0 h1 h2 : Option SendRecord) : Option (Nat × SendRecord) :=
  pickAcc (pickAcc (pickAcc none 0 h0) 1 h1) 2 h2

/-- The block after the refill loop of fill_up_send_queue: leaving a
no-congestion period shifts last_loss so the CUBIC clock does not advance
while idle. -/
def finishFill (r : Resender) (now : Nat) : Resender :=
  match r.noCongestionSince with
  | some u => { r with noCongestionSince := none, lastLoss := now - (u - r.lastLoss) }
  | none => r

/-- The refill loop of fill_up_send_queue. The fuel is the number of free
window slots (window - send_queue.len()); i0 i1 i2 are the three iterators
(suffixes of the per-type queues from the cursors on); the heap push is
modelled as appending to the list. -/
def fillLoop : Nat → List SendRecord → List SendRecord → List SendRecord →
    Resender → Nat → Resender
  | 0, _, _, _, r, now => finishFill r now
  | n + 1, i0, i1, i2, r, now =>
    match pickNext i0.head? i1.head? i2.head? with
    | none =>
      if r.noCongestionSince.isNone then { r with noCongestionSince := some now } else r
    | some (j, m) =>
      fillLoop n (if j = 0 then i0.tail else i0) (if j = 1 then i1.tail else i1)
        (if j = 2 then i2.tail else i2)
        { r with
            sendQueueIndices := r.sendQueueIndices.set j (m.id.id.part.add 1)
            sendQueue := r.sendQueue ++ [m.id] } now

/-- The iterator of fill_up_send_queue for queue i: values from the cursor on
(skip_while id < send_queue_indices[i]). -/
def skipped (r : Resender) (i : Nat) : List SendRecord :=
  (r.fullSendQueue.getD i []).dropWhile
    (fun x => x.id.id.part.ltb (r.sendQueueIndices.getD i default))

/-- Resender::fill_up_send_queue; the CUBIC window value (f32 in the source)
is passed in as `window`. -/
def fillUpSendQueue (r : Resender) (window now : Nat) : Resender :=
  fillLoop (window - r.sendQueue.length) (skipped r 0) (skipped r 1) (skipped r 2) r now

/-- Resender::send_packet: records the packet (tries 0, last = sent = now)
in the per-type store, then refills the send queue. -/
def sendPacket (con : Connection) (pkt : PacketId) (window now : Nat) : Connection :=
  let sr : SendRecord := { sent := now, id := { last := now, tries := 0, id := pkt } }
  let i := typeToIndex pkt.packetType
  let r :=
    { con.resender with
        lastSend := now
        fullSendQueue :=
          con.resender.fullSendQueue.set i
            (insertSorted (con.resender.fullSendQueue.getD i []) sr) }
  { con with resender := fillUpSendQueue r window now }

/-- Ord for PartialPacketId as an Ordering, used by the heap comparison. -/
def cmpPart (a b : PartialPacketId) : Ordering :=
  (compare a.generationId b.generationId).then (compare a.packetId b.packetId)

/-- Ord for SendRecordId: unsent records outrank sent ones; then earlier
`last` outranks later; ties broken by lower packet id part. -/
def cmpSendRecordId (a b : SendRecordId) : Ordering :=
  if a.tries = 0 ∧ b.tries ≠ 0 then .gt
  else if a.tries ≠ 0 ∧ b.tries = 0 then .lt
  else ((compare a.last b.last).swap).then ((cmpPart a.id.part b.id.part).swap)

/-- BinaryHeap::peek_mut: a maximal element w.r.t. cmpSendRecordId. -/
def heapPeek (l : List SendRecordId) : Option SendRecordId :=
  l.foldl
    (fun acc x =>
      match acc with
      | none => some x
      | some a => if cmpSendRecordId a x = .lt then some x else some a)
    none

/-- BTreeMap::get_mut by key. -/
def findRec (l : List SendRecord) (key : PartialPacketId) : Option SendRecord :=
  l.find? (fun x => x.id.id.part = key)

/-- The action one iteration of the poll_resend loop takes. -/
inductive ResendAction where
  | emptyQueue
  | skipAcked (r : SendRecordId)
  | waitTimer (deadline : Nat)
  | timedOut
  | sendAttempt (r : SendRecordId)
deriving DecidableEq, Repr

/-- One iteration of the loop in Resender::poll_resend, up to the decision
which action to take for the heap top (actually sending, and the loss
handling after a successful send, are beyond the decision modelled here). -/
def pollResendStep (r : Resender) (now : Nat) : ResendAction :=
  let timeout := r.getTimeout
  let rto := min (r.config.srtt + r.config.srttDev * 4) 1000000000
  let lastThreshold := now - rto
  match heapPeek r.sendQueue with
  | none => .emptyQueue
  | some top =>
    match findRec (r.fullSendQueue.getD (typeToIndex top.id.packetType) []) top.id.part with
    | none => .skipAcked top
    | some fullRec =>
      if top.tries ≠ 0 ∧ lastThreshold < top.last then
        .waitTimer (now + (top.last - lastThreshold))
      else if timeout < now - fullRec.sent then .timedOut
      else .sendAttempt top

/-- Pop elements from the back of a deque while they satisfy p
(VecDeque::pop_back in a while loop). -/
def dropWhileBack {α : Type} (p : α → Bool) (l : List α) : List α :=
  (l.reverse.dropWhile p).reverse

/-- The sliding-window-minimum state of an AudioQueue:
last_buffer_samples (front of the VecDeque = head of the list, entries are
(insertion tick, size)) and cur_last_buffer_sample (a u16, wrapping). -/
structure SWState where
  lastBufferSamples : List (Nat × Nat)
  curLastBufferSample : Nat
deriving DecidableEq, Repr

/-- AudioQueue::add_buffer_size: pop back entries whose size is >= the new
size, push (cur, size), increment cur (u16, wrapping), then evict front
entries whose wrapping age exceeds LAST_BUFFER_SIZE_COUNT = 256. -/
def addBufferSize (st : SWState) (size : Nat) : SWState :=
  let d1 := dropWhileBack (fun q => size ≤ q.2) st.lastBufferSamples
  let d2 := d1 ++ [(st.curLastBufferSample, size)]
  let cur := (st.curLastBufferSample + 1) % 65536
  let d3 := d2.dropWhile (fun q => 256 < u16wsub cur q.1)
  { lastBufferSamples := d3, curLastBufferSample := cur }

/-- The sliding-window state after inserting the given sizes in order into
a fresh deque (AudioQueue::new starts from the empty deque with cur = 0 and
immediately inserts 0). -/
def runBuffer (sizes : List Nat) : SWState :=
  sizes.foldl addBufferSize { lastBufferSamples := [], curLastBufferSample := 0 }

/-- Characterisation of the deque entries: insertion j of the history
survives iff it is at most 256 insertions old and its size is strictly
below every later size. -/
def goodIdx (hist : List Nat) (j : Nat) : Prop :=
  j < hist.length ∧ hist.length ≤ j + 256 ∧
    ∀ k < hist.length, j < k → hist.getD j 0 < hist.getD k 0

instance goodIdx.decidable (hist : List Nat) (j : Nat) : Decidable (goodIdx hist j) := by
  unfold goodIdx
  exact inferInstance

/-- The surviving insertion indices, in order. -/
def goodList (hist : List Nat) : List Nat :=
  (List.range hist.length).filter fun j => decide (goodIdx hist j)

/-- QueuePacket from audio.rs; the Opus payload is opaque, only its parsed
sample count, its u16 sequence id and its whisper tag remain. -/
structure QueuePacket where
  samples : Nat
  id : Nat
  whisper : Bool
deriving DecidableEq, Repr

/-- CodecType of tsproto-packets. -/
inductive Codec where
  | SpeexNarrowband
  | SpeexWideband
  | SpeexUltrawideband
  | CeltMono
  | OpusVoice
  | OpusMusic
deriving DecidableEq, Repr

/-- An incoming InAudioBuf as the audio handler inspects it: whether the
payload is empty, the codec, the u16 id, the result of the Opus
packet::nb_samples parse (none = parse error) and the whisper tag. -/
structure APacket where
  empty : Bool
  codec : Codec
  id : Nat
  nbSamples : Option Nat
  whisper : Bool
deriving DecidableEq, Repr

/-- AudioQueue from audio.rs. The f32 buffers carry no information the
claims need, so decoded_buffer is modelled by its length; the Opus decoder
itself is an oracle parameter of the operations (decode pkt fec = number of
samples produced, or an error). -/
structure AudioQueue where
  nextId : Nat
  whispering : Bool
  packetBuffer : List QueuePacket
  packetBufferSamples : Nat
  decodedLen : Nat
  decodedPos : Nat
  lastPacketSamples : Nat
  packetLossNum : Nat
  bufferingSamples : Nat
  lastBufferSamples : List (Nat × Nat)
  curLastBufferSample : Nat
  bufferedForSamples : Nat
deriving DecidableEq, Repr

def AudioQueue.swState (q : AudioQueue) : SWState :=
  { lastBufferSamples := q.lastBufferSamples
    curLastBufferSample := q.curLastBufferSample }

/-- add_buffer_size acting on the whole AudioQueue. -/
def addBufferSizeQ (q : AudioQueue) (size : Nat) : AudioQueue :=
  let st := addBufferSize q.swState size
  { q with lastBufferSamples := st.lastBufferSamples
           curLastBufferSample := st.curLastBufferSample }

/-- AudioQueue::get_min_queue_size. -/
def AudioQueue.getMinQueueSize (q : AudioQueue) : Nat :=
  q.lastPacketSamples + ((q.lastBufferSamples.head?.map Prod.snd).getD 0)

/-- AudioQueue::add_packet. Errors carry the queue as the `&mut self` the
caller keeps after the early return; all bail-outs precede any mutation. -/
def addPacket (q : AudioQueue) (pkt : APacket) :
    Except (String × AudioQueue) AudioQueue :=
  if 50 ≤ q.packetBuffer.length then .error ("Audio queue is full, dropping", q)
  else
    match pkt.nbSamples with
    | none => .error ("nb_samples failed", q)
    | some samples =>
      let qp : QueuePacket := { samples := samples, id := pkt.id, whisper := pkt.whisper }
      if 50 < u16wsub pkt.id q.nextId then
        .error ("Audio packet is too late, dropping", q)
      else
        let i := q.packetBuffer.length -
          (q.packetBuffer.reverse.takeWhile fun p => decide (pkt.id < p.id)).length
        let lastId :=
          match q.packetBuffer.getLast? with
          | some p => u16wadd p.id 1
          | none => pkt.id
        let q1 :=
          if lastId ≤ pkt.id then
            let b1 := q.bufferingSamples - samples
            { q with bufferingSamples := b1 - (pkt.id - lastId) * q.lastPacketSamples }
          else q
        .ok { q1 with
                packetBufferSamples := q1.packetBufferSamples + samples
                packetBuffer := q1.packetBuffer.insertIdx i qp }

/-- AudioQueue::decode_packet, with the Opus decoder as an oracle. On a
decoder error the mutations made before the `?` (whispering,
packet_loss_num, the resize of the decoded buffer) stay, as with &mut self
in the source. -/
def decodePacket (decode : Option QueuePacket → Bool → Except String Nat)
    (q : AudioQueue) (pkt? : Option QueuePacket) (fec : Bool) :
    Except (String × AudioQueue) AudioQueue :=
  let len0 :=
    match pkt? with
    | some p => p.samples
    | none => q.lastPacketSamples
  let q1 :=
    match pkt? with
    | some p => { q with whispering := p.whisper }
    | none => q
  let q2 := { q1 with packetLossNum := q1.packetLossNum + 1 }
  let q3 := { q2 with decodedLen := q2.decodedPos + len0 * 2 }
  match decode pkt? fec with
  | .error e => .error (e, q3)
  | .ok dlen =>
    let q4 := { q3 with lastPacketSamples := dlen, decodedLen := q3.decodedPos + dlen * 2 }
    let q5 := if pkt?.isSome && !fec then { q4 with packetLossNum := 0 } else q4
    let count := q5.packetBufferSamples +
      (match q5.packetBuffer.getLast? with
       | some last =>
         (u16wsub last.id q5.nextId + 1 - q5.packetBuffer.length) * q5.lastPacketSamples
       | none => 0)
    .ok (addBufferSizeQ q5 count)

/-- The rev().take_while of the truncation in get_next_data: counts trailing
packets while the running inclusive sum stays below minS. -/
def keepCount (minS : Nat) : Nat → List QueuePacket → Nat
  | _, [] => 0
  | acc, p :: rest =>
    if acc + p.samples < minS then 1 + keepCount minS (acc + p.samples) rest else 0

/-- The block after a decode in get_next_data: truncate the buffer when more
than MAX_BUFFER_SIZE = 24000 samples beyond one packet are queued, else
speed up by draining one stereo frame per SPEED_CHANGE_STEPS = 100 from the
freshly decoded region. -/
def afterDecode (q : AudioQueue) : AudioQueue :=
  let minS := q.getMinQueueSize
  let minLeft := minS - q.lastPacketSamples
  if 24000 < minLeft then
    let keep := keepCount minS 0 q.packetBuffer.reverse
    let dropN := q.packetBuffer.length - keep
    let pb := q.packetBuffer.drop dropN
    let q1 := { q with packetBuffer := pb
                       packetBufferSamples := (pb.map QueuePacket.samples).sum }
    match pb.head? with
    | some p => { q1 with nextId := p.id }
    | none => q1
  else if q.lastPacketSamples < minS then
    { q with decodedLen := q.decodedLen - 2 * (q.lastPacketSamples / 100) }
  else q

/-- The while loop of AudioQueue::get_next_data, with explicit fuel (the
source loop's termination depends on the decoder producing samples). -/
def gndLoop (decode : Option QueuePacket → Bool → Except String Nat) :
    Nat → Nat → AudioQueue → Except (String × AudioQueue) AudioQueue
  | 0, _, q => .error ("model fuel exhausted", q)
  | fuel + 1, len, q =>
    if q.decodedLen < q.decodedPos + len then
      let q1 :=
        if q.decodedPos < q.decodedLen then
          if 0 < q.decodedPos then
            { q with decodedLen := q.decodedLen - q.decodedPos, decodedPos := 0 }
          else q
        else { q with decodedLen := 0, decodedPos := 0 }
      match q1.packetBuffer with
      | [] =>
        match decodePacket decode q1 none false with
        | .error e => .error e
        | .ok q2 => gndLoop decode fuel len (afterDecode q2)
      | pkt :: rest =>
        let q2 := { q1 with
            packetBuffer := rest
            packetBufferSamples := q1.packetBufferSamples - pkt.samples }
        let curId := q2.nextId
        let q3 := { q2 with nextId := (q2.nextId + 1) % 65536 }
        if curId < pkt.id then
          match (if pkt.id = q3.nextId then decodePacket decode q3 (some pkt) true
                 else decodePacket decode q3 none false) with
          | .error e => .error e
          | .ok q4 =>
            let q5 := { q4 with
                packetBufferSamples := q4.packetBufferSamples + pkt.samples
                packetBuffer := pkt :: q4.packetBuffer }
            gndLoop decode fuel len (afterDecode q5)
        else
          match decodePacket decode q3 (some pkt) false with
          | .error e => .error e
          | .ok q4 => gndLoop decode fuel len (afterDecode q4)
    else .ok { q with decodedPos := q.decodedPos + len }

/-- AudioQueue::get_next_data (the returned slice is implicit: decoded_pos
advances over it). -/
def getNextData (decode : Option QueuePacket → Bool → Except String Nat)
    (q : AudioQueue) (len fuel : Nat) : Except (String × AudioQueue) AudioQueue :=
  if 0 < q.bufferingSamples then
    if 24000 ≤ q.bufferedForSamples then
      gndLoop decode fuel len { q with bufferingSamples := 0, bufferedForSamples := 0 }
    else .ok { q with bufferedForSamples := q.bufferedForSamples + len }
  else gndLoop decode fuel len q

/-- AudioQueue::new: parse the sample count, build the fresh queue,
add_buffer_size(0), then add_packet with the same packet. -/
def AudioQueue.new (pkt : APacket) : Except String AudioQueue :=
  match pkt.nbSamples with
  | none => .error "nb_samples failed"
  | some nb =>
    let q0 : AudioQueue :=
      { nextId := pkt.id
        whispering := false
        packetBuffer := []
        packetBufferSamples := 0
        decodedLen := 0
        decodedPos := 0
        lastPacketSamples := nb * 2
        packetLossNum := 0
        bufferingSamples := 0
        lastBufferSamples := []
        curLastBufferSample := 0
        bufferedForSamples := 0 }
    let q1 := addBufferSizeQ q0 0
    match addPacket q1 pkt with
    | .error e => .error e.1
    | .ok q2 => .ok q2

/-- AudioHandler from audio.rs; the HashMap of queues is an association
list. -/
structure AudioHandler (Id : Type) where
  queues : List (Id × AudioQueue)
  talkersChanged : Bool
  avgBufferSamples : Nat

def lookupQ {Id : Type} [DecidableEq Id] (l : List (Id × AudioQueue)) (i : Id) :
    Option AudioQueue :=
  (l.find? fun p => decide (p.1 = i)).map Prod.snd

def eraseQ {Id : Type} [DecidableEq Id] (l : List (Id × AudioQueue)) (i : Id) :
    List (Id × AudioQueue) :=
  l.filter fun p => decide (p.1 ≠ i)

def setQ {Id : Type} [DecidableEq Id] (l : List (Id × AudioQueue)) (i : Id)
    (q : AudioQueue) : List (Id × AudioQueue) :=
  l.map fun p => if p.1 = i then (i, q) else p

def insertQ {Id : Type} (l : List (Id × AudioQueue)) (i : Id) (q : AudioQueue) :
    List (Id × AudioQueue) :=
  l ++ [(i, q)]

/-- AudioHandler::handle_packet. -/
def handlePacket {Id : Type} [DecidableEq Id] (h : AudioHandler Id) (cid : Id)
    (pkt : APacket) : Except (String × AudioHandler Id) (AudioHandler Id) :=
  if pkt.codec ≠ Codec.OpusMusic ∧ pkt.codec ≠ Codec.OpusVoice then
    .error ("Can only handle opus audio", h)
  else
    match lookupQ h.queues cid with
    | some q =>
      if pkt.empty then
        .ok { h with queues := eraseQ h.queues cid, talkersChanged := true }
      else
        match addPacket q pkt with
        | .error (e, q1) => .error (e, { h with queues := setQ h.queues cid q1 })
        | .ok q1 => .ok { h with queues := setQ h.queues cid q1 }
    | none =>
      if pkt.empty then .ok h
      else
        match AudioQueue.new pkt with
        | .error e => .error (e, h)
        | .ok qn =>
          let h1 :=
            if h.queues.isEmpty then h
            else
              { h with avgBufferSamples :=
                  ((h.queues.map fun p => p.2.getMinQueueSize).sum) / h.queues.length }
          let qn1 := { qn with bufferingSamples := h1.avgBufferSamples }
          .ok { h1 with queues := insertQ h1.queues cid qn1, talkersChanged := true }

/-- The queue state an AudioQueue operation leaves behind, error or not. -/
def exceptState : Except (String × AudioQueue) AudioQueue → AudioQueue
  | .ok q => q
  | .error (_, q) => q

/-- The C7 invariant: the aggregate equals the sum of the buffered samples. -/
def bufferSamplesInv (q : AudioQueue) : Prop :=
  q.packetBufferSamples = (q.packetBuffer.map QueuePacket.samples).sum

instance (q : AudioQueue) : Decidable (bufferSamplesInv q) := by
  unfold bufferSamplesInv
  exact inferInstance

/-- An empty audio queue (concrete example data). -/
def qEmpty : AudioQueue :=
  { nextId := 0
    whispering := false
    packetBuffer := []
    packetBufferSamples := 0
    decodedLen := 0
    decodedPos := 0
    lastPacketSamples := 960
    packetLossNum := 0
    bufferingSamples := 0
    lastBufferSamples := [(0, 0)]
    curLastBufferSample := 1
    bufferedForSamples := 0 }

/-- An audio queue already holding 50 packets (concrete example data). -/
def qFull50 : AudioQueue :=
  { qEmpty with
      packetBuffer := List.replicate 50 { samples := 10, id := 0, whisper := false }
      packetBufferSamples := 500 }

/-- A parseable Opus packet whose id 100 is more than 50 past next_id 0. -/
def pktLate : APacket :=
  { empty := false, codec := Codec.OpusVoice, id := 100, nbSamples := some 10
    whisper := false }

/-- A parseable in-order Opus packet. -/
def pktOk : APacket :=
  { empty := false, codec := Codec.OpusVoice, id := 0, nbSamples := some 480
    whisper := false }

/-- An empty-payload Opus packet. -/
def pktEmpty : APacket :=
  { empty := true, codec := Codec.OpusVoice, id := 0, nbSamples := none
    whisper := false }

/-- An audio handler with no queues (concrete example data). -/
def hNoQueues : AudioHandler Nat :=
  { queues := [], talkersChanged := false, avgBufferSamples := 0 }

/-- The default ResendConfig of resend.rs (times in nanoseconds). -/
def defaultConfig : ResendConfig :=
  { connectingTimeout := 5000000000
    normalTimeout := 30000000000
    disconnectTimeout := 5000000000
    srtt := 500000000
    srttDev := 0 }

/-- A Command record whose original send time is 5 (concrete example data). -/
def recA : SendRecord :=
  { sent := 5, id := { last := 5, tries := 0, id := { packetType := .Command, part := ⟨0, 0⟩ } } }

/-- A CommandLow record whose original send time is 7 (concrete example data). -/
def recB : SendRecord :=
  { sent := 7, id := { last := 7, tries := 0, id := { packetType := .CommandLow, part := ⟨0, 0⟩ } } }

/-- A resender holding recA (Command) and recB (CommandLow) with empty heap. -/
def rC1 : Resender :=
  { sendQueue := []
    fullSendQueue := [[], [recA], [recB]]
    sendQueueIndices := [⟨0, 0⟩, ⟨0, 0⟩, ⟨0, 0⟩]
    config := defaultConfig
    state := .Connected
    wMax := 50
    lastLoss := 0
    noCongestionSince := none
    lastReceive := 0
    lastSend := 0 }

/-- Fifteen outstanding Command records with ids (0,0) .. (0,14). -/
def c2Records : List SendRecord :=
  (List.range 15).map fun k =>
    { sent := k, id := { last := k, tries := 1, id := { packetType := .Command, part := ⟨0, k⟩ } } }

/-- A resender with 15 outstanding Command packets. -/
def rC2 : Resender :=
  { sendQueue := []
    fullSendQueue := [[], c2Records, []]
    sendQueueIndices := [⟨0, 0⟩, ⟨0, 0⟩, ⟨0, 0⟩]
    config := defaultConfig
    state := .Connected
    wMax := 50
    lastLoss := 0
    noCongestionSince := none
    lastReceive := 0
    lastSend := 0 }

/-- A record already sent once at time 1.9 s (concrete example data). -/
def ridC4 : SendRecordId :=
  { last := 1900000000, tries := 1, id := { packetType := .Command, part := ⟨0, 0⟩ } }

def frecC4 : SendRecord := { sent := 100, id := ridC4 }

/-- A resender whose heap top is ridC4, defaults srtt = 500 ms, srtt_dev = 0. -/
def rC4 : Resender :=
  { sendQueue := [ridC4]
    fullSendQueue := [[], [frecC4], []]
    sendQueueIndices := [⟨0, 0⟩, ⟨0, 0⟩, ⟨0, 0⟩]
    config := defaultConfig
    state := .Connected
    wMax := 50
    lastLoss := 0
    noCongestionSince := none
    lastReceive := 0
    lastSend := 0 }

/-- A connection whose Command queue holds exactly frecC4 (seq 0, tries 1). -/
def conC3 : Connection :=
  { resender := rC4
    streamItems := []
    outgoingPId := fun _ => ⟨0, 1⟩ }

/-- A retransmitted Command record (tries 2) at seq 0 (concrete example data). -/
def recT2 : SendRecord :=
  { sent := 100
    id := { last := 900, tries := 2, id := { packetType := .Command, part := ⟨0, 0⟩ } } }

/-- A first-try Command record (tries 1) at seq 1 (concrete example data). -/
def recT1 : SendRecord :=
  { sent := 200
    id := { last := 950, tries := 1, id := { packetType := .Command, part := ⟨0, 1⟩ } } }

/-- A connection with a mixed Command queue: a retransmitted head (tries 2)
followed by an outstanding first-try record (tries 1). -/
def conC5 : Connection :=
  { resender :=
      { sendQueue := [recT2.id, recT1.id]
        fullSendQueue := [[], [recT2, recT1], []]
        sendQueueIndices := [⟨0, 0⟩, ⟨0, 0⟩, ⟨0, 0⟩]
        config := defaultConfig
        state := .Connected
        wMax := 50
        lastLoss := 0
        noCongestionSince := none
        lastReceive := 0
        lastSend := 0 }
    streamItems := []
    outgoingPId := fun _ => ⟨0, 2⟩ }

/-- C9: for every generation g, PartialPacketId{gen g, seq 65535} + 1 =
{gen g+1 (wrapping at 2^32), seq 0}; {gen g+1, seq 0} - 1 = {gen g, seq 65535};
and in general sequence arithmetic wraps at 2^16 and carries into (or borrows
from) generation_id. -/
theorem c9_packet_id_wrap (g p r : Nat) (hg : g < 4294967296) (hp : p < 65536)
    (hr : r < 65536) :
    (PartialPacketId.add ⟨g, 65535⟩ 1 = ⟨(g + 1) % 4294967296, 0⟩)
    ∧ (PartialPacketId.sub ⟨(g + 1) % 4294967296, 0⟩ 1 = ⟨g, 65535⟩)
    ∧ ((PartialPacketId.add ⟨g, p⟩ r).packetId = (p + r) % 65536
        ∧ (PartialPacketId.add ⟨g, p⟩ r).generationId =
            (if 65536 ≤ p + r then (g + 1) % 4294967296 else g))
    ∧ ((PartialPacketId.sub ⟨g, p⟩ r).packetId = (p + 65536 - r) % 65536
        ∧ (PartialPacketId.sub ⟨g, p⟩ r).generationId =
            (if p < r then (g + 4294967296 - 1) % 4294967296 else g)) := by
  refine ⟨?_, ?_, ⟨?_, ?_⟩, ⟨?_, ?_⟩⟩ <;>
    simp only [PartialPacketId.add, PartialPacketId.sub, u16wadd, u16wsub,
      u32succ, u32pred, PartialPacketId.mk.injEq, and_true, true_and] <;>
    (try split_ifs) <;> omega

/-- Witness for C9 at g = 5, p = 65535, r = 1. -/
theorem c9_packet_id_wrap_witness :
    PartialPacketId.add ⟨5, 65535⟩ 1 = ⟨(5 + 1) % 4294967296, 0⟩ :=
  (c9_packet_id_wrap 5 65535 1 (by decide) (by decide) (by decide)).1

/-- Specification of pickNext: it returns a head record whose sent time is
maximal among the (up to three) iterator heads. -/
lemma pickNext_spec (o0 o1 o2 : Option SendRecord) (j : Nat) (m : SendRecord)
    (h : pickNext o0 o1 o2 = some (j, m)) :
    [o0, o1, o2].getD j none = some m
    ∧ ∀ k rec2, [o0, o1, o2].getD k none = some rec2 → rec2.sent ≤ m.sent := by
  rcases o0 with _ | a <;> rcases o1 with _ | b <;> rcases o2 with _ | c
  · simp [pickNext, pickAcc] at h
  · simp [pickNext, pickAcc] at h
    obtain ⟨rfl, rfl⟩ := h
    refine ⟨rfl, ?_⟩
    intro k rec2 hk
    rcases k with _ | _ | _ | k <;> simp_all
  · simp [pickNext, pickAcc] at h
    obtain ⟨rfl, rfl⟩ := h
    refine ⟨rfl, ?_⟩
    intro k rec2 hk
    rcases k with _ | _ | _ | k <;> simp_all
  · by_cases hbc : b.sent < c.sent <;>
      simp [pickNext, pickAcc, hbc] at h <;>
      obtain ⟨rfl, rfl⟩ := h <;>
      refine ⟨rfl, ?_⟩ <;>
      intro k rec2 hk <;>
      rcases k with _ | _ | _ | k <;> simp_all <;> omega
  · simp [pickNext, pickAcc] at h
    obtain ⟨rfl, rfl⟩ := h
    refine ⟨rfl, ?_⟩
    intro k rec2 hk
    rcases k with _ | _ | _ | k <;> simp_all
  · by_cases hac : a.sent < c.sent <;>
      simp [pickNext, pickAcc, hac] at h <;>
      obtain ⟨rfl, rfl⟩ := h <;>
      refine ⟨rfl, ?_⟩ <;>
      intro k rec2 hk <;>
      rcases k with _ | _ | _ | k <;> simp_all <;> omega
  · by_cases hab : a.sent < b.sent <;>
      simp [pickNext, pickAcc, hab] at h <;>
      obtain ⟨rfl, rfl⟩ := h <;>
      refine ⟨rfl, ?_⟩ <;>
      intro k rec2 hk <;>
      rcases k with _ | _ | _ | k <;> simp_all <;> omega
  · by_cases hab : a.sent < b.sent
    · by_cases hbc : b.sent < c.sent <;>
        simp [pickNext, pickAcc, hab, hbc] at h <;>
        obtain ⟨rfl, rfl⟩ := h <;>
        refine ⟨rfl, ?_⟩ <;>
        intro k rec2 hk <;>
        rcases k with _ | _ | _ | k <;> simp_all <;> omega
    · by_cases hac : a.sent < c.sent <;>
        simp [pickNext, pickAcc, hab, hac] at h <;>
        obtain ⟨rfl, rfl⟩ := h <;>
        refine ⟨rfl, ?_⟩ <;>
        intro k rec2 hk <;>
        rcases k with _ | _ | _ | k <;> simp_all <;> omega

/-- C1 (amended): each refill iteration of fill_up_send_queue that still has
a free window slot and an available cursor head picks, among the three
per-type cursor heads, the record with the LARGEST `sent` timestamp (the
source keeps a candidate when the best so far is strictly smaller than the
head's sent), advances that type's cursor past it, and pushes the record
onto the heap. (The claim as stated — smallest `sent` — is refuted by
c1_refill_smallest_counterexample.) -/
theorem c1_refill_picks_largest_sent (n : Nat) (i0 i1 i2 : List SendRecord)
    (r : Resender) (now : Nat) (j : Nat) (m : SendRecord)
    (hpick : pickNext i0.head? i1.head? i2.head? = some (j, m)) :
    ([i0.head?, i1.head?, i2.head?].getD j none = some m)
    ∧ (∀ k rec2, [i0.head?, i1.head?, i2.head?].getD k none = some rec2 →
        rec2.sent ≤ m.sent)
    ∧ fillLoop (n + 1) i0 i1 i2 r now =
        fillLoop n (if j = 0 then i0.tail else i0) (if j = 1 then i1.tail else i1)
          (if j = 2 then i2.tail else i2)
          { r with
              sendQueueIndices := r.sendQueueIndices.set j (m.id.id.part.add 1)
              sendQueue := r.sendQueue ++ [m.id] } now := by
  obtain ⟨h1, h2⟩ := pickNext_spec _ _ _ _ _ hpick
  refine ⟨h1, h2, ?_⟩
  simp only [fillLoop, hpick]

/-- Witness for C1 (amended) with a single Command head. -/
theorem c1_refill_picks_largest_sent_witness :
    ([[recA].head?, List.head? [], List.head? []].getD 0 none = some recA)
    ∧ (∀ k rec2, [[recA].head?, List.head? [], List.head? []].getD k none = some rec2 →
        rec2.sent ≤ recA.sent)
    ∧ fillLoop 1 [recA] [] [] rC1 100 =
        fillLoop 0 (if 0 = 0 then [recA].tail else [recA])
          (if 0 = 1 then List.tail [] else []) (if 0 = 2 then List.tail [] else [])
          { rC1 with
              sendQueueIndices := rC1.sendQueueIndices.set 0 (recA.id.id.part.add 1)
              sendQueue := rC1.sendQueue ++ [recA.id] } 100 :=
  c1_refill_picks_largest_sent 0 [recA] [] [] rC1 100 0 recA (by decide)

/-- C1 counterexample: with one free window slot and cursor heads recA
(Command, sent 5) and recB (CommandLow, sent 7), fill_up_send_queue pushes
recB — the head with the larger sent time — so the refill does NOT pick the
record with the smallest sent timestamp. -/
theorem c1_refill_smallest_counterexample :
    (fillUpSendQueue rC1 1 100).sendQueue = [recB.id]
    ∧ (skipped rC1 1).head? = some recA
    ∧ (skipped rC1 2).head? = some recB
    ∧ recA.sent < recB.sent
    ∧ recB.id ≠ recA.id := by decide

/-- C2 (code bug): is_full compares self.full_send_queue.len() — the length
of the [BTreeMap; 3] array, which is always 3 — against the congestion
window. With 15 outstanding Command packets and window 10 it answers false,
although the stored packets exceed the window; with an empty store and
window 3 it answers true. The hard ceiling 32767 of get_window's clamp is
recorded as the last conjunct. -/
theorem c2_is_full_uses_array_length :
    Resender.isFull rC2 10 = false
    ∧ (rC2.fullSendQueue.getD (typeToIndex .Command) []).length = 15
    ∧ 10 ≤ 15
    ∧ rC2.fullSendQueue.length = 3
    ∧ Resender.isFull rC2 3 = true
    ∧ (∀ res : Int, clampWindow res ≤ 32767) := by
  refine ⟨by decide, by decide, by decide, by decide, by decide, ?_⟩
  intro res
  unfold clampWindow
  split_ifs <;> omega

/-- C4: in a poll_resend iteration the retransmission timeout is
rto = min(srtt + 4*srtt_dev, 1 s); a heap-top record with tries > 0 and
last > now - rto is not sent in that tick — the step resolves to arming the
retransmit timer for last + rto. -/
theorem c4_rto_skip_and_timer (r : Resender) (now : Nat) (top : SendRecordId)
    (fullRec : SendRecord)
    (hpeek : heapPeek r.sendQueue = some top)
    (hfind : findRec (r.fullSendQueue.getD (typeToIndex top.id.packetType) [])
        top.id.part = some fullRec)
    (htries : 0 < top.tries)
    (hlast : now - min (r.config.srtt + 4 * r.config.srttDev) 1000000000 < top.last)
    (hnow : min (r.config.srtt + 4 * r.config.srttDev) 1000000000 ≤ now) :
    pollResendStep r now =
      ResendAction.waitTimer
        (top.last + min (r.config.srtt + 4 * r.config.srttDev) 1000000000) := by
  have hc : r.config.srtt + r.config.srttDev * 4 = r.config.srtt + 4 * r.config.srttDev := by
    ring
  simp only [pollResendStep, hpeek, hfind, hc]
  rw [if_pos (show top.tries ≠ 0 ∧
      now - min (r.config.srtt + 4 * r.config.srttDev) 1000000000 < top.last from
      ⟨by omega, hlast⟩)]
  congr 1
  omega

/-- Witness for C4: defaults srtt = 500 ms, srtt_dev = 0, record last sent
at 1.9 s, now = 2 s; the timer is armed for 1.9 s + 0.5 s = 2.4 s. -/
theorem c4_rto_skip_and_timer_witness :
    pollResendStep rC4 2000000000 =
      ResendAction.waitTimer
        (ridC4.last + min (rC4.config.srtt + 4 * rC4.config.srttDev) 1000000000) :=
  c4_rto_skip_and_timer rC4 2000000000 ridC4 frecC4 (by decide) (by decide)
    (by decide) (by decide) (by decide)

lemma typeToIndex_lt_three (t : PType) : typeToIndex t < 3 := by
  cases t <;> decide

lemma getD_set_self {α : Type} (l : List α) (i : Nat) (a d : α) (h : i < l.length) :
    (l.set i a).getD i d = a := by
  induction l generalizing i with
  | nil => simp at h
  | cons x tl ih =>
    cases i with
    | zero => rfl
    | succ k =>
      simp only [List.set_cons_succ, List.getD_cons_succ]
      exact ih k (by simpa using h)

lemma removeRec_none (q : List SendRecord) (key : PartialPacketId)
    (h : ∀ x ∈ q, x.id.id.part ≠ key) : removeRec q key = none := by
  induction q with
  | nil => rfl
  | cons a tl ih =>
    unfold removeRec
    rw [if_neg (h a (List.mem_cons_self a tl))]
    rw [ih fun x hx => h x (List.mem_cons_of_mem _ hx)]

lemma removeRec_mem {q : List SendRecord} {key : PartialPacketId}
    {rec2 : SendRecord} {q' : List SendRecord}
    (h : removeRec q key = some (rec2, q')) : rec2 ∈ q := by
  induction q generalizing q' with
  | nil => cases h
  | cons a tl ih =>
    unfold removeRec at h
    by_cases ha : a.id.id.part = key
    · rw [if_pos ha] at h
      cases h
      exact List.mem_cons_self _ _
    · rw [if_neg ha] at h
      cases hh : removeRec tl key with
      | none => rw [hh] at h; cases h
      | some pr =>
        rw [hh] at h
        cases h
        exact List.mem_cons_of_mem _ (ih hh)

lemma removeRec_eq_erase (q : List SendRecord) (key : PartialPacketId)
    (r0 : SendRecord) (hmem : r0 ∈ q) (hr0 : r0.id.id.part = key)
    (hkeyuniq : ∀ x ∈ q, x.id.id.part = key → x = r0) :
    removeRec q key = some (r0, q.erase r0) := by
  induction q with
  | nil => cases hmem
  | cons a tl ih =>
    by_cases ha : a.id.id.part = key
    · have haa : a = r0 := hkeyuniq a (List.mem_cons_self a tl) ha
      subst haa
      unfold removeRec
      rw [if_pos ha, List.erase_cons_head]
    · have hmem' : r0 ∈ tl := by
        rcases List.mem_cons.mp hmem with h1 | h1
        · exact absurd (h1 ▸ hr0) ha
        · exact h1
      have hne : a ≠ r0 := fun hh => ha (hh ▸ hr0)
      unfold removeRec
      rw [if_neg ha,
        ih hmem' fun x hx hxk => hkeyuniq x (List.mem_cons_of_mem _ hx) hxk]
      rw [List.erase_cons_tail]
      simp [hne]

lemma updateSrtt_fullSendQueue (r : Resender) (rtt : Nat) :
    (r.updateSrtt rtt).fullSendQueue = r.fullSendQueue := rfl

lemma applyRemoval_typeQueue (con : Connection) (t : PType) (rec2 : SendRecord)
    (q' : List SendRecord) (now : Nat)
    (hlen : con.resender.fullSendQueue.length = 3) :
    (applyRemoval con (typeToIndex t) (some (rec2, q')) now).typeQueue t = q' := by
  have hlt : typeToIndex t < con.resender.fullSendQueue.length := by
    rw [hlen]; exact typeToIndex_lt_three t
  unfold applyRemoval Connection.typeQueue
  dsimp only
  split_ifs <;> simp [updateSrtt_fullSendQueue, List.getElem?_set_self hlt]

lemma applyRemoval_config_of_not_first_try (con : Connection) (qi : Nat)
    (res : Option (SendRecord × List SendRecord)) (now : Nat)
    (h : ∀ rec2 q', res = some (rec2, q') → rec2.id.tries ≠ 1) :
    (applyRemoval con qi res now).resender.config = con.resender.config := by
  unfold applyRemoval
  cases res with
  | none => rfl
  | some pr =>
    rcases pr with ⟨rec2, q'⟩
    dsimp only
    rw [if_neg (h rec2 q' rfl)]

lemma applyRemoval_config_of_first_try (con : Connection) (qi : Nat)
    (rec2 : SendRecord) (q' : List SendRecord) (now : Nat)
    (h : rec2.id.tries = 1) :
    (applyRemoval con qi (some (rec2, q')) now).resender.config.srttDev =
        con.resender.config.srttDev * 3 / 4 +
          (if con.resender.config.srtt < now - rec2.sent then
            (now - rec2.sent) - con.resender.config.srtt
           else con.resender.config.srtt - (now - rec2.sent)) / 4
    ∧ (applyRemoval con qi (some (rec2, q')) now).resender.config.srtt =
        con.resender.config.srtt * 7 / 8 + (now - rec2.sent) / 8 := by
  unfold applyRemoval
  dsimp only
  rw [if_pos h]
  exact ⟨rfl, rfl⟩

lemma ackPacket_noop (con : Connection) (t : PType) (s now : Nat)
    (h : ∀ x ∈ con.typeQueue t, x.id.id.part.packetId ≠ s) :
    ackPacket con t s now = con := by
  rcases hq : con.typeQueue t with _ | ⟨first, rest⟩
  · simp [ackPacket, hq]
  · have hf : ¬ first.id.id.part.packetId = s :=
      h first (by rw [hq]; exact List.mem_cons_self _ _)
    have hrm : removeRec (first :: rest) (ackElseKey first s) = none := by
      apply removeRec_none
      intro x hx hkey
      refine h x (by rw [hq]; exact hx) ?_
      have := congrArg PartialPacketId.packetId hkey
      simpa [ackElseKey] using this
    simp [ackPacket, hq, hf, hrm, applyRemoval]

/-- C3: an ACK whose sequence number matches an outstanding record removes
that record from the per-type store, and a second ACK of the same
(type, seq) afterwards — no new record with that sequence number having
been stored in between — is a no-op: the whole connection (store, srtt,
srtt_dev and the emitted AckPacket stream) is unchanged. The hypotheses
express the store wellformedness resend.rs maintains: three per-type
queues, no duplicate entries, sequence numbers unique among outstanding
records of one type, and generations forming the contiguous window that
ack_packet's wrap reconstruction assumes. -/
theorem c3_ack_removes_and_duplicate_ignored
    (con : Connection) (t : PType) (s now now2 : Nat) (r0 : SendRecord)
    (hlen : con.resender.fullSendQueue.length = 3)
    (hmem : r0 ∈ con.typeQueue t)
    (hpid : r0.id.id.part.packetId = s)
    (hnodup : (con.typeQueue t).Nodup)
    (huniq : ∀ x ∈ con.typeQueue t, ∀ y ∈ con.typeQueue t,
        x.id.id.part.packetId = y.id.id.part.packetId → x = y)
    (hgen : ∀ first rest, con.typeQueue t = first :: rest →
        r0.id.id.part.generationId =
          (if s < first.id.id.part.packetId then u32succ first.id.id.part.generationId
           else first.id.id.part.generationId)) :
    ((ackPacket con t s now).typeQueue t = (con.typeQueue t).erase r0
      ∧ r0 ∉ (ackPacket con t s now).typeQueue t)
    ∧ ackPacket (ackPacket con t s now) t s now2 = ackPacket con t s now := by
  rcases hq : con.typeQueue t with _ | ⟨first, rest⟩
  · rw [hq] at hmem; cases hmem
  have hqmem : r0 ∈ first :: rest := hq ▸ hmem
  have hfirstmem : first ∈ con.typeQueue t := by
    rw [hq]; exact List.mem_cons_self _ _
  have hmain : (ackPacket con t s now).typeQueue t = (first :: rest).erase r0 := by
    by_cases hfp : first.id.id.part.packetId = s
    · have hfr : first = r0 := huniq first hfirstmem r0 hmem (by rw [hfp, hpid])
      have hkeyuniq : ∀ x ∈ first :: rest, x.id.id.part = first.id.id.part → x = r0 := by
        intro x hx hxk
        refine huniq x (hq ▸ hx) r0 hmem ?_
        have h1 : x.id.id.part.packetId = first.id.id.part.packetId :=
          congrArg PartialPacketId.packetId hxk
        rw [hpid, ← hfp]
        exact h1
      have hrm : removeRec (first :: rest) first.id.id.part =
          some (r0, (first :: rest).erase r0) :=
        removeRec_eq_erase _ _ _ hqmem (by rw [hfr]) hkeyuniq
      have hack : ackPacket con t s now =
          applyRemoval
            { con with streamItems := con.streamItems ++ [ackEventId con t s rest] }
            (typeToIndex t) (some (r0, (first :: rest).erase r0)) now := by
        simp only [ackPacket, hq]
        rw [if_pos hfp, hrm]
      rw [hack]
      exact applyRemoval_typeQueue _ _ _ _ _ hlen
    · have hr0key : r0.id.id.part = ackElseKey first s := by
        have h1 := hgen first rest hq
        rcases hr : r0.id.id.part with ⟨gg, pp⟩
        rw [hr] at h1 hpid
        simp only at h1 hpid
        simp only [ackElseKey, PartialPacketId.mk.injEq]
        exact ⟨h1, hpid⟩
      have hkeyuniq : ∀ x ∈ first :: rest, x.id.id.part = ackElseKey first s → x = r0 := by
        intro x hx hxk
        refine huniq x (hq ▸ hx) r0 hmem ?_
        have h1 : x.id.id.part.packetId = s := by
          have := congrArg PartialPacketId.packetId hxk
          simpa [ackElseKey] using this
        rw [h1, hpid]
      have hrm : removeRec (first :: rest) (ackElseKey first s) =
          some (r0, (first :: rest).erase r0) :=
        removeRec_eq_erase _ _ _ hqmem hr0key hkeyuniq
      have hack : ackPacket con t s now =
          applyRemoval con (typeToIndex t) (some (r0, (first :: rest).erase r0)) now := by
        simp only [ackPacket, hq]
        rw [if_neg hfp, hrm]
      rw [hack]
      exact applyRemoval_typeQueue _ _ _ _ _ hlen
  have hout : r0 ∉ (ackPacket con t s now).typeQueue t := by
    rw [hmain]
    exact (hq ▸ hnodup).not_mem_erase
  have hnos : ∀ x ∈ (ackPacket con t s now).typeQueue t,
      x.id.id.part.packetId ≠ s := by
    intro x hx hxs
    have hx2 : x ∈ first :: rest := List.mem_of_mem_erase (hmain ▸ hx)
    have hxr : x = r0 := huniq x (hq ▸ hx2) r0 hmem (by rw [hxs, hpid])
    exact hout (hxr ▸ hx)
  exact ⟨⟨hq ▸ hmain, hout⟩, ackPacket_noop _ _ _ _ hnos⟩

/-- Witness for C3: acking seq 0 on a Command queue holding exactly one
record with seq 0 removes it; a duplicate ACK at a later time changes
nothing. -/
theorem c3_ack_removes_and_duplicate_ignored_witness :
    ((ackPacket conC3 PType.Command 0 1000).typeQueue PType.Command =
        (conC3.typeQueue PType.Command).erase frecC4
      ∧ frecC4 ∉ (ackPacket conC3 PType.Command 0 1000).typeQueue PType.Command)
    ∧ ackPacket (ackPacket conC3 PType.Command 0 1000) PType.Command 0 2000 =
        ackPacket conC3 PType.Command 0 1000 :=
  c3_ack_removes_and_duplicate_ignored conC3 PType.Command 0 1000 2000 frecC4
    (by decide) (by decide) (by decide) (by decide) (by decide)
    (by
      intro first rest h
      have h2 : first :: rest = [frecC4] := h.symm
      injection h2 with ha hb
      subst ha
      decide)

/-- C5: in ack_packet, srtt and srtt_dev change only when the removed
record was sent exactly once (tries = 1); they are then updated, with
rtt = now - record.sent, to srtt_dev := 3/4*srtt_dev + 1/4*|rtt - srtt|
followed by srtt := 7/8*srtt + 1/8*rtt (integer nanosecond divisions, as
Duration arithmetic truncates). Acks of records with tries differing from 1
— in particular of retransmitted records, whatever the other outstanding
records of the type are — leave both untouched. The six conjuncts cover
every path of ack_packet: empty queue; head-ack with tries differing
from 1; head-ack with tries = 1; silently-removed record with tries
differing from 1; silently-removed record with tries = 1; and a spurious
ack removing nothing. -/
theorem c5_srtt_updates_on_first_attempt_only
    (con : Connection) (t : PType) (s now : Nat) :
    (con.typeQueue t = [] →
      (ackPacket con t s now).resender.config.srtt = con.resender.config.srtt
      ∧ (ackPacket con t s now).resender.config.srttDev = con.resender.config.srttDev)
    ∧ (∀ first rest, con.typeQueue t = first :: rest →
        first.id.id.part.packetId = s → first.id.tries ≠ 1 →
        (ackPacket con t s now).resender.config.srtt = con.resender.config.srtt
        ∧ (ackPacket con t s now).resender.config.srttDev =
            con.resender.config.srttDev)
    ∧ (∀ first rest, con.typeQueue t = first :: rest →
        first.id.id.part.packetId = s → first.id.tries = 1 →
        (ackPacket con t s now).resender.config.srttDev =
            con.resender.config.srttDev * 3 / 4 +
              (if con.resender.config.srtt < now - first.sent then
                (now - first.sent) - con.resender.config.srtt
               else con.resender.config.srtt - (now - first.sent)) / 4
        ∧ (ackPacket con t s now).resender.config.srtt =
            con.resender.config.srtt * 7 / 8 + (now - first.sent) / 8)
    ∧ (∀ first rest r2 q2, con.typeQueue t = first :: rest →
        first.id.id.part.packetId ≠ s →
        removeRec (first :: rest) (ackElseKey first s) = some (r2, q2) →
        r2.id.tries ≠ 1 →
        (ackPacket con t s now).resender.config.srtt = con.resender.config.srtt
        ∧ (ackPacket con t s now).resender.config.srttDev =
            con.resender.config.srttDev)
    ∧ (∀ first rest r2 q2, con.typeQueue t = first :: rest →
        first.id.id.part.packetId ≠ s →
        removeRec (first :: rest) (ackElseKey first s) = some (r2, q2) →
        r2.id.tries = 1 →
        (ackPacket con t s now).resender.config.srttDev =
            con.resender.config.srttDev * 3 / 4 +
              (if con.resender.config.srtt < now - r2.sent then
                (now - r2.sent) - con.resender.config.srtt
               else con.resender.config.srtt - (now - r2.sent)) / 4
        ∧ (ackPacket con t s now).resender.config.srtt =
            con.resender.config.srtt * 7 / 8 + (now - r2.sent) / 8)
    ∧ (∀ first rest, con.typeQueue t = first :: rest →
        first.id.id.part.packetId ≠ s →
        removeRec (first :: rest) (ackElseKey first s) = none →
        ackPacket con t s now = con) := by
  refine ⟨?_, ?_, ?_, ?_, ?_, ?_⟩
  · intro hq
    have hack : ackPacket con t s now = con := by
      simp [ackPacket, hq]
    rw [hack]
    exact ⟨rfl, rfl⟩
  · intro first rest hq hfp htries
    have hrm : removeRec (first :: rest) first.id.id.part = some (first, rest) := by
      unfold removeRec
      rw [if_pos rfl]
    have hack : ackPacket con t s now =
        applyRemoval
          { con with streamItems := con.streamItems ++ [ackEventId con t s rest] }
          (typeToIndex t) (some (first, rest)) now := by
      simp only [ackPacket, hq]
      rw [if_pos hfp, hrm]
    rw [hack]
    have hcfg := applyRemoval_config_of_not_first_try
      { con with streamItems := con.streamItems ++ [ackEventId con t s rest] }
      (typeToIndex t) (some (first, rest)) now
      (by intro a b he; cases he; exact htries)
    have hX : ({ con with
        streamItems := con.streamItems ++ [ackEventId con t s rest] } :
          Connection).resender.config = con.resender.config := rfl
    exact ⟨by rw [hcfg, hX], by rw [hcfg, hX]⟩
  · intro first rest hq hfp htries
    have hrm : removeRec (first :: rest) first.id.id.part = some (first, rest) := by
      unfold removeRec
      rw [if_pos rfl]
    have hack : ackPacket con t s now =
        applyRemoval
          { con with streamItems := con.streamItems ++ [ackEventId con t s rest] }
          (typeToIndex t) (some (first, rest)) now := by
      simp only [ackPacket, hq]
      rw [if_pos hfp, hrm]
    rw [hack]
    exact applyRemoval_config_of_first_try _ _ _ _ _ htries
  · intro first rest r2 q2 hq hfp hrm htries
    have hack : ackPacket con t s now =
        applyRemoval con (typeToIndex t) (some (r2, q2)) now := by
      simp only [ackPacket, hq]
      rw [if_neg hfp, hrm]
    rw [hack]
    have hcfg := applyRemoval_config_of_not_first_try con (typeToIndex t)
      (some (r2, q2)) now
      (by intro a b he; cases he; exact htries)
    exact ⟨by rw [hcfg], by rw [hcfg]⟩
  · intro first rest r2 q2 hq hfp hrm htries
    have hack : ackPacket con t s now =
        applyRemoval con (typeToIndex t) (some (r2, q2)) now := by
      simp only [ackPacket, hq]
      rw [if_neg hfp, hrm]
    rw [hack]
    exact applyRemoval_config_of_first_try _ _ _ _ _ htries
  · intro first rest hq hfp hrm
    simp only [ackPacket, hq]
    rw [if_neg hfp, hrm]
    rfl

/-- Witness for C5 on the case the claim singles out: the ack of a
retransmitted record (tries = 2) in a mixed queue that still holds an
outstanding first-try record (tries = 1) changes neither srtt nor
srtt_dev. -/
theorem c5_srtt_updates_on_first_attempt_only_witness :
    (ackPacket conC5 PType.Command 0 1000).resender.config.srtt =
        conC5.resender.config.srtt
    ∧ (ackPacket conC5 PType.Command 0 1000).resender.config.srttDev =
        conC5.resender.config.srttDev :=
  (c5_srtt_updates_on_first_attempt_only conC5 PType.Command 0 1000).2.1
    recT2 [recT1] (by decide) (by decide) (by decide)

lemma dropWhile_eq_filter_of_pairwise {α : Type} {p : α → Bool} {l : List α}
    (h : l.Pairwise fun a b => p a = false → p b = false) :
    l.dropWhile p = l.filter (fun a => !p a) := by
  induction l with
  | nil => rfl
  | cons a t ih =>
    rcases List.pairwise_cons.mp h with ⟨ha, ht⟩
    cases hpa : p a with
    | true => simp [List.dropWhile_cons, List.filter_cons, hpa, ih ht]
    | false =>
      simp only [List.dropWhile_cons, hpa, List.filter_cons, Bool.not_false, if_pos]
      refine (List.cons_eq_cons.mpr ⟨rfl, ?_⟩)
      exact (List.filter_eq_self.mpr fun b hb => by simp [ha b hb hpa]).symm

lemma dropWhileBack_eq_filter_of_pairwise {α : Type} {p : α → Bool} {l : List α}
    (h : l.Pairwise fun a b => p b = false → p a = false) :
    dropWhileBack p l = l.filter (fun a => !p a) := by
  unfold dropWhileBack
  rw [dropWhile_eq_filter_of_pairwise (List.pairwise_reverse.mpr h)]
  rw [List.filter_reverse, List.reverse_reverse]

lemma u16wsub_mod_eq (a b : Nat) (hba : b ≤ a) (hlt : a - b < 65536) :
    u16wsub (a % 65536) (b % 65536) = a - b := by
  unfold u16wsub
  omega

lemma getD_append_lt (l l' : List Nat) (j : Nat) (h : j < l.length) :
    (l ++ l').getD j 0 = l.getD j 0 := by
  simp [List.getElem?_append_left h]

lemma getD_append_len (l : List Nat) (s : Nat) : (l ++ [s]).getD l.length 0 = s := by
  simp

lemma mem_goodList {hist : List Nat} {j : Nat} :
    j ∈ goodList hist ↔ goodIdx hist j := by
  constructor
  · intro h
    have := List.of_mem_filter h
    simpa using this
  · intro h
    refine List.mem_filter.mpr ⟨List.mem_range.mpr h.1, by simpa using h⟩

lemma goodList_pairwise_lt (hist : List Nat) : (goodList hist).Pairwise (· < ·) :=
  (List.pairwise_lt_range hist.length).filter _

lemma goodList_pairwise_getD (hist : List Nat) :
    (goodList hist).Pairwise fun j1 j2 => hist.getD j1 0 < hist.getD j2 0 := by
  refine (goodList_pairwise_lt hist).imp_of_mem ?_
  intro j1 j2 h1 h2 hlt
  have g1 := mem_goodList.mp h1
  have g2 := mem_goodList.mp h2
  exact g1.2.2 j2 g2.1 hlt

lemma goodIdx_append (hist : List Nat) (s : Nat) (j : Nat) (hj : j < hist.length) :
    goodIdx (hist ++ [s]) j ↔
      goodIdx hist j ∧ hist.getD j 0 < s ∧ hist.length + 1 ≤ j + 256 := by
  unfold goodIdx
  simp only [List.length_append, List.length_cons, List.length_nil]
  constructor
  · rintro ⟨h1, h2, h3⟩
    have hlast := h3 hist.length (by omega) hj
    rw [getD_append_lt _ _ _ hj, getD_append_len] at hlast
    refine ⟨⟨hj, by omega, ?_⟩, hlast, by omega⟩
    intro k hk hjk
    have := h3 k (by omega) hjk
    rwa [getD_append_lt _ _ _ hj, getD_append_lt _ _ _ hk] at this
  · rintro ⟨⟨h1, h2, h3⟩, h4, h5⟩
    refine ⟨by omega, by omega, ?_⟩
    intro k hk hjk
    rw [getD_append_lt _ _ _ hj]
    by_cases hkn : k < hist.length
    · rw [getD_append_lt _ _ _ hkn]
      exact h3 k hkn hjk
    · have hke : k = hist.length := by omega
      subst hke
      rw [getD_append_len]
      exact h4

lemma goodIdx_last (hist : List Nat) (s : Nat) :
    goodIdx (hist ++ [s]) hist.length := by
  unfold goodIdx
  simp only [List.length_append, List.length_cons, List.length_nil]
  exact ⟨by omega, by omega, fun k hk hjk => by omega⟩

lemma runBuffer_append_spec (hist : List Nat) (s : Nat)
    (ih1 : (runBuffer hist).curLastBufferSample = hist.length % 65536)
    (ih2 : (runBuffer hist).lastBufferSamples =
      (goodList hist).map fun j => (j % 65536, hist.getD j 0)) :
    (runBuffer (hist ++ [s])).curLastBufferSample = (hist ++ [s]).length % 65536
    ∧ (runBuffer (hist ++ [s])).lastBufferSamples =
      (goodList (hist ++ [s])).map fun j => (j % 65536, (hist ++ [s]).getD j 0) := by
  have hrun : runBuffer (hist ++ [s]) = addBufferSize (runBuffer hist) s := by
    unfold runBuffer
    rw [List.foldl_append]
    rfl
  set n := hist.length with hn
  set f : Nat → Nat × Nat := fun j => (j % 65536, hist.getD j 0) with hf
  set f' : Nat → Nat × Nat := fun j => (j % 65536, (hist ++ [s]).getD j 0) with hf'
  set G := goodList hist with hG
  set p1 : Nat → Bool := fun j => !decide (s ≤ hist.getD j 0) with hp1
  -- stage 1: the pops from the back remove exactly the entries with size >= s
  have hpw1 : (G.map f).Pairwise
      fun a b => decide (s ≤ b.2) = false → decide (s ≤ a.2) = false := by
    refine List.pairwise_map.mpr ((goodList_pairwise_getD hist).imp ?_)
    intro a b hab hb
    simp only [hf, decide_eq_false_iff_not, Nat.not_le] at hb ⊢
    omega
  have hs1 : dropWhileBack (fun q => decide (s ≤ q.2)) (G.map f) =
      (G.filter p1).map f := by
    rw [dropWhileBack_eq_filter_of_pairwise hpw1, List.filter_map]
    rfl
  -- the appended entry is f' n, and f agrees with f' on good indices
  have hmapf' : (G.filter p1).map f = (G.filter p1).map f' := by
    refine List.map_congr_left ?_
    intro j hj
    have hjn : j < n := (mem_goodList.mp (List.mem_of_mem_filter hj)).1
    simp only [hf, hf']
    rw [getD_append_lt _ _ _ hjn]
  have hlastf' : ((n : Nat) % 65536, s) = f' n := by
    simp only [hf']
    rw [getD_append_len]
  -- stage 3: eviction of too-old entries at the front
  set cur' := (n + 1) % 65536 with hcur'
  set p : Nat × Nat → Bool := fun q => decide (256 < u16wsub cur' q.1) with hp
  have hage : ∀ j : Nat, j ≤ n → n + 1 ≤ j + 257 → u16wsub cur' (j % 65536) = n + 1 - j := by
    intro j h1 h2
    have h3 := u16wsub_mod_eq (n + 1) j (by omega) (by omega)
    simpa [hcur'] using h3
  have hbound : ∀ j ∈ G.filter p1 ++ [n], j ≤ n ∧ n + 1 ≤ j + 257 := by
    intro j hj
    rcases List.mem_append.mp hj with hj | hj
    · obtain ⟨hg1, hg2, -⟩ := mem_goodList.mp (List.mem_of_mem_filter hj)
      exact ⟨by omega, by omega⟩
    · have : j = n := by simpa using hj
      subst this
      exact ⟨Nat.le_refl _, by omega⟩
  have hpw2 : (G.filter p1 ++ [n]).Pairwise (· < ·) := by
    rw [List.pairwise_append]
    refine ⟨(goodList_pairwise_lt hist).filter _, List.pairwise_singleton _ _, ?_⟩
    intro a ha b hb
    have : b = n := by simpa using hb
    subst this
    exact (mem_goodList.mp (List.mem_of_mem_filter ha)).1
  have hpw3 : ((G.filter p1 ++ [n]).map f').Pairwise
      fun a b => p a = false → p b = false := by
    refine List.pairwise_map.mpr (hpw2.imp_of_mem ?_)
    intro j1 j2 h1 h2 hlt hpj1
    obtain ⟨hb1, hb1'⟩ := hbound j1 h1
    obtain ⟨hb2, hb2'⟩ := hbound j2 h2
    simp only [hp, hf'] at hpj1 ⊢
    rw [hage j1 hb1 hb1'] at hpj1
    rw [hage j2 hb2 hb2']
    simp only [decide_eq_false_iff_not, Nat.not_lt] at hpj1 ⊢
    omega
  have hs3 : ((G.filter p1 ++ [n]).map f').dropWhile p =
      ((G.filter p1 ++ [n]).filter fun j => !(p (f' j))).map f' := by
    rw [dropWhile_eq_filter_of_pairwise hpw3, List.filter_map]
    rfl
  have hs3' : ((G.filter p1 ++ [n]).filter fun j => !(p (f' j))) =
      ((G.filter p1 ++ [n]).filter fun j => decide (n + 1 ≤ j + 256)) := by
    refine List.filter_congr ?_
    intro j hj
    obtain ⟨hb, hb'⟩ := hbound j hj
    simp only [hp, hf']
    rw [hage j hb hb', Bool.eq_iff_iff]
    simp only [Bool.not_eq_true', decide_eq_false_iff_not, decide_eq_true_eq,
      Nat.not_lt]
    omega
  have hidx : ((G.filter p1 ++ [n]).filter fun j => decide (n + 1 ≤ j + 256)) =
      goodList (hist ++ [s]) := by
    rw [List.filter_append]
    have hlen' : (hist ++ [s]).length = n + 1 := by simp
    rw [goodList, hlen', List.range_succ, List.filter_append]
    congr 1
    · rw [hG, goodList, List.filter_filter, List.filter_filter]
      refine List.filter_congr ?_
      intro j hj
      have hjn : j < n := List.mem_range.mp hj
      have hiff := goodIdx_append hist s j hjn
      rw [Bool.eq_iff_iff]
      simp only [Bool.and_eq_true, decide_eq_true_eq, hp1, Bool.not_eq_true',
        decide_eq_false_iff_not, Nat.not_le]
      tauto
    · have hg := goodIdx_last hist s
      simp only [List.filter_cons, List.filter_nil]
      rw [if_pos (by simp only [decide_eq_true_eq]; omega),
        if_pos (by simp only [decide_eq_true_eq]; exact hg)]
  constructor
  · rw [hrun]
    unfold addBufferSize
    dsimp only
    rw [ih1]
    simp only [List.length_append, List.length_cons, List.length_nil]
    omega
  · rw [hrun]
    unfold addBufferSize
    dsimp only
    rw [ih2, ih1]
    have hcc : (n % 65536 + 1) % 65536 = cur' := by
      rw [hcur']
      omega
    rw [hcc, hs1, hmapf', hlastf']
    rw [show [f' n] = List.map f' [n] from rfl, ← List.map_append]
    rw [hs3, hs3', hidx]

/-- Full characterisation of add_buffer_size iterated from the fresh state:
the counter is the number of insertions mod 2^16 and the deque holds exactly
the good indices (at most 256 old, strictly dominated by nothing later),
each as (tick mod 2^16, inserted size). -/
lemma runBuffer_spec (hist : List Nat) :
    (runBuffer hist).curLastBufferSample = hist.length % 65536
    ∧ (runBuffer hist).lastBufferSamples =
      (goodList hist).map fun j => (j % 65536, hist.getD j 0) := by
  induction hist using List.reverseRecOn with
  | nil => exact ⟨rfl, rfl⟩
  | append_singleton hist s ih => exact runBuffer_append_spec hist s ih.1 ih.2

lemma getD_drop (l : List Nat) (i m : Nat) :
    (l.drop i).getD m 0 = l.getD (i + m) 0 := by
  simp [List.getElem?_drop]

lemma getD_mem_of_lt (l : List Nat) (k : Nat) (h : k < l.length) :
    l.getD k 0 ∈ l := by
  rw [List.getD_eq_getElem?_getD, List.getElem?_eq_getElem h]
  exact List.getElem_mem h

lemma mem_drop_getD (l : List Nat) (i : Nat) (x : Nat) (h : x ∈ l.drop i) :
    ∃ k, i ≤ k ∧ k < l.length ∧ x = l.getD k 0 := by
  obtain ⟨m, hm, hx⟩ := List.mem_iff_getElem.mp h
  have hm' : i + m < l.length := by
    have := l.length_drop i
    omega
  refine ⟨i + m, by omega, hm', ?_⟩
  rw [← getD_drop, List.getD_eq_getElem?_getD, List.getElem?_eq_getElem hm, hx]
  rfl

/-- Every nonempty list of naturals has a last argmin: an index holding the
minimum whose value is strictly below every later value. -/
lemma exists_last_argmin (l : List Nat) (hne : l ≠ []) :
    ∃ i, i < l.length ∧ (∀ k < l.length, l.getD i 0 ≤ l.getD k 0)
      ∧ (∀ k < l.length, i < k → l.getD i 0 < l.getD k 0) := by
  induction l using List.reverseRecOn with
  | nil => cases hne rfl
  | append_singleton l a ih =>
    rcases eq_or_ne l [] with rfl | hl
    · refine ⟨0, by simp, ?_, ?_⟩ <;> intro k hk <;>
        simp only [List.nil_append, List.length_cons, List.length_nil] at hk
      · have hk0 : k = 0 := by omega
        subst hk0
        exact Nat.le_refl _
      · intro h0k
        omega
    · obtain ⟨i, hi1, hi2, hi3⟩ := ih hl
      by_cases hc : l.getD i 0 < a
      · refine ⟨i, by simp only [List.length_append]; omega, ?_, ?_⟩
        · intro k hk
          simp only [List.length_append, List.length_cons, List.length_nil] at hk
          rw [getD_append_lt _ _ _ hi1]
          by_cases hkl : k < l.length
          · rw [getD_append_lt _ _ _ hkl]
            exact hi2 k hkl
          · have hke : k = l.length := by omega
            subst hke
            rw [getD_append_len]
            omega
        · intro k hk hik
          simp only [List.length_append, List.length_cons, List.length_nil] at hk
          rw [getD_append_lt _ _ _ hi1]
          by_cases hkl : k < l.length
          · rw [getD_append_lt _ _ _ hkl]
            exact hi3 k hkl hik
          · have hke : k = l.length := by omega
            subst hke
            rw [getD_append_len]
            exact hc
      · refine ⟨l.length, by simp, ?_, ?_⟩
        · intro k hk
          simp only [List.length_append, List.length_cons, List.length_nil] at hk
          rw [getD_append_len]
          by_cases hkl : k < l.length
          · rw [getD_append_lt _ _ _ hkl]
            have := hi2 k hkl
            omega
          · have hke : k = l.length := by omega
            subst hke
            rw [getD_append_len]
        · intro k hk hik
          simp only [List.length_append, List.length_cons, List.length_nil] at hk
          exact absurd hik (by omega)

/-- C6 (amended): after construction (which inserts 0) and any sequence of
add_buffer_size calls, last_buffer_samples is never empty, has length at
most 256, is strictly increasing in size from front to back, and strictly
increasing in insertion tick under the wrap-adjusted order (the wrapping
age cur - tick strictly decreases from front to back — the raw u16 ticks
themselves wrap, see the counterexample); and the front entry's size is the
minimum of the sizes inserted over the last at most 256 insertions. -/
theorem c6_sliding_window_amended (sizes : List Nat) :
    (runBuffer (0 :: sizes)).lastBufferSamples ≠ []
    ∧ (runBuffer (0 :: sizes)).lastBufferSamples.length ≤ 256
    ∧ (runBuffer (0 :: sizes)).lastBufferSamples.Pairwise (fun a b => a.2 < b.2)
    ∧ (runBuffer (0 :: sizes)).lastBufferSamples.Pairwise
        (fun a b => u16wsub (runBuffer (0 :: sizes)).curLastBufferSample b.1
          < u16wsub (runBuffer (0 :: sizes)).curLastBufferSample a.1)
    ∧ (∀ front, (runBuffer (0 :: sizes)).lastBufferSamples.head? = some front →
        front.2 ∈ (0 :: sizes).drop ((0 :: sizes).length - 256)
        ∧ ∀ x ∈ (0 :: sizes).drop ((0 :: sizes).length - 256), front.2 ≤ x) := by
  obtain ⟨hcur, hdq⟩ := runBuffer_spec (0 :: sizes)
  set hist := 0 :: sizes with hhist
  set f : Nat → Nat × Nat := fun j => (j % 65536, hist.getD j 0) with hf
  set n := hist.length with hn
  have hn1 : 1 ≤ n := by
    rw [hn, hhist]
    simp
  have hglast : goodIdx hist (n - 1) :=
    ⟨by omega, by omega, fun k hk hlt => by omega⟩
  refine ⟨?_, ?_, ?_, ?_, ?_⟩
  · rw [hdq]
    intro hemp
    have hmemg : n - 1 ∈ goodList hist := mem_goodList.mpr hglast
    rw [List.map_eq_nil_iff.mp hemp] at hmemg
    exact absurd hmemg (List.not_mem_nil _)
  · rw [hdq, List.length_map]
    have hndp : (goodList hist).Nodup := (List.nodup_range _).filter _
    calc (goodList hist).length = (goodList hist).toFinset.card :=
          (List.toFinset_card_of_nodup hndp).symm
      _ ≤ (Finset.Ico (n - 256) n).card := by
          refine Finset.card_le_card ?_
          intro j hj
          obtain ⟨h1, h2, -⟩ := mem_goodList.mp (List.mem_toFinset.mp hj)
          exact Finset.mem_Ico.mpr ⟨by omega, h1⟩
      _ = n - (n - 256) := Nat.card_Ico _ _
      _ ≤ 256 := by omega
  · rw [hdq]
    refine List.pairwise_map.mpr ((goodList_pairwise_getD hist).imp ?_)
    intro a b h
    simpa [hf] using h
  · rw [hdq, hcur]
    refine List.pairwise_map.mpr ((goodList_pairwise_lt hist).imp_of_mem ?_)
    intro j1 j2 h1 h2 hlt
    obtain ⟨ha1, hb1, -⟩ := mem_goodList.mp h1
    obtain ⟨ha2, hb2, -⟩ := mem_goodList.mp h2
    have e1 : u16wsub (n % 65536) (j1 % 65536) = n - j1 :=
      u16wsub_mod_eq n j1 (by omega) (by omega)
    have e2 : u16wsub (n % 65536) (j2 % 65536) = n - j2 :=
      u16wsub_mod_eq n j2 (by omega) (by omega)
    simp only [hf]
    rw [e1, e2]
    omega
  · intro front hfront
    rw [hdq, List.head?_map] at hfront
    cases hgl : goodList hist with
    | nil =>
      rw [hgl] at hfront
      simp at hfront
    | cons j0 grest =>
      rw [hgl] at hfront
      simp only [List.head?_cons, Option.map_some'] at hfront
      obtain rfl : f j0 = front := Option.some.inj hfront
      have hg0 : goodIdx hist j0 :=
        mem_goodList.mp (hgl ▸ List.mem_cons_self j0 grest)
      have hwlen : (hist.drop (n - 256)).length = n - (n - 256) := by
        simp
      have hwne : hist.drop (n - 256) ≠ [] := by
        intro he
        rw [he] at hwlen
        simp at hwlen
        omega
      constructor
      · show hist.getD j0 0 ∈ hist.drop (n - 256)
        rw [show hist.getD j0 0 = (hist.drop (n - 256)).getD (j0 - (n - 256)) 0 from by
          rw [getD_drop]
          congr 1
          obtain ⟨h1, h2, -⟩ := hg0
          omega]
        refine getD_mem_of_lt _ _ ?_
        rw [hwlen]
        obtain ⟨h1, h2, -⟩ := hg0
        omega
      · intro x hx
        obtain ⟨k, hk1, hk2, rfl⟩ := mem_drop_getD hist (n - 256) x hx
        obtain ⟨im, him1, him2, him3⟩ := exists_last_argmin (hist.drop (n - 256)) hwne
        rw [hwlen] at him1
        have hwim : (hist.drop (n - 256)).getD im 0 = hist.getD ((n - 256) + im) 0 :=
          getD_drop _ _ _
        have hjmlt : (n - 256) + im < n := by omega
        have hgm : goodIdx hist ((n - 256) + im) := by
          refine ⟨hjmlt, by omega, ?_⟩
          intro k2 hk2' hlt2
          have hk2w : k2 - (n - 256) < (hist.drop (n - 256)).length := by
            rw [hwlen]
            omega
          have hst := him3 (k2 - (n - 256)) (by rw [hwlen]; omega) (by omega)
          rw [hwim] at hst
          rwa [show (hist.drop (n - 256)).getD (k2 - (n - 256)) 0 = hist.getD k2 0 from by
            rw [getD_drop]
            congr 1
            omega] at hst
        have hjmem : (n - 256) + im ∈ goodList hist := mem_goodList.mpr hgm
        rw [hgl] at hjmem
        have hj0le : j0 ≤ (n - 256) + im := by
          rcases List.mem_cons.mp hjmem with he | hmem2
          · omega
          · have hpl := goodList_pairwise_lt hist
            rw [hgl] at hpl
            have := (List.pairwise_cons.mp hpl).1 _ hmem2
            omega
        have hfle : hist.getD j0 0 ≤ hist.getD ((n - 256) + im) 0 := by
          rcases Nat.eq_or_lt_of_le hj0le with he | hlt2
          · rw [he]
          · exact Nat.le_of_lt (hg0.2.2 _ hjmlt hlt2)
        have hmin : hist.getD ((n - 256) + im) 0 ≤ hist.getD k 0 := by
          have hle := him2 (k - (n - 256)) (by rw [hwlen]; omega)
          rw [hwim] at hle
          rwa [show (hist.drop (n - 256)).getD (k - (n - 256)) 0 = hist.getD k 0 from by
            rw [getD_drop]
            congr 1
            omega] at hle
        exact Nat.le_trans hfle hmin

/-- Witness for C6 (amended) at the insertion stream [5] after the
construction insert of 0. -/
theorem c6_sliding_window_amended_witness :
    (0, 0).2 ∈ (0 :: [5]).drop ((0 :: [5]).length - 256)
    ∧ ∀ x ∈ (0 :: [5]).drop ((0 :: [5]).length - 256), (0, 0).2 ≤ x :=
  (c6_sliding_window_amended [5]).2.2.2.2 (0, 0) (by decide)

lemma addBufferSize_zero_step (j : Nat) :
    addBufferSize ⟨[(j % 65536, 0)], (j + 1) % 65536⟩ 0 =
      ⟨[((j + 1) % 65536, 0)], (j + 2) % 65536⟩ := by
  unfold addBufferSize dropWhileBack
  dsimp only
  have h1 : List.dropWhile (fun q : Nat × Nat => decide ((0:Nat) ≤ q.2))
      ([(j % 65536, 0)].reverse) = [] := by simp
  rw [h1]
  simp only [List.reverse_nil, List.nil_append]
  have h2 : ((j + 1) % 65536 + 1) % 65536 = (j + 2) % 65536 := by omega
  rw [h2]
  have h3 : List.dropWhile
      (fun q : Nat × Nat => decide (256 < u16wsub ((j + 2) % 65536) q.1))
      [((j + 1) % 65536, 0)] = [((j + 1) % 65536, 0)] := by
    rw [List.dropWhile_cons]
    have h4 : u16wsub ((j + 2) % 65536) ((j + 1) % 65536) = 1 := by
      unfold u16wsub
      omega
    rw [h4]
    simp
  rw [h3]

lemma runBuffer_zeros (k : Nat) : ∀ j : Nat,
    (List.replicate k 0).foldl addBufferSize ⟨[(j % 65536, 0)], (j + 1) % 65536⟩ =
      ⟨[((j + k) % 65536, 0)], (j + k + 1) % 65536⟩ := by
  induction k with
  | zero => intro j; simp
  | succ m ih =>
    intro j
    rw [List.replicate_succ, List.foldl_cons, addBufferSize_zero_step j]
    have h := ih (j + 1)
    rw [show ((j:Nat) + 2) % 65536 = (j + 1 + 1) % 65536 from rfl, h]
    have e1 : j + 1 + m = j + (m + 1) := by omega
    rw [e1]

/-- C6 counterexample: the insertion ticks are u16 and wrap at 2^16. After
the construction insert and 65536 further add_buffer_size calls (65534
zeros, then 10, then 20) the deque is [(65534, 0), (65535, 10), (0, 20)]:
its raw ticks are NOT strictly increasing from front to back (65535 > 0),
refuting the claim's "strictly increasing in both insertion tick and size".
(Sizes, and ticks under wrap-adjusted comparison, do increase — see the
amended theorem.) -/
theorem c6_tick_increase_counterexample :
    (runBuffer (List.replicate 65535 0 ++ [10, 20])).lastBufferSamples =
      [(65534, 0), (65535, 10), (0, 20)]
    ∧ ¬ (runBuffer (List.replicate 65535 0 ++ [10, 20])).lastBufferSamples.Pairwise
        (fun a b => a.1 < b.1)
    ∧ List.replicate 65535 (0:Nat) ++ [10, 20] =
        0 :: (List.replicate 65534 0 ++ [10, 20]) := by
  have h2 : runBuffer (List.replicate 65535 0 ++ [10, 20]) =
      [10, 20].foldl addBufferSize
        ((List.replicate 65535 0).foldl addBufferSize ⟨[], 0⟩) := by
    unfold runBuffer
    rw [List.foldl_append]
  have h3 : (List.replicate 65535 0).foldl addBufferSize ⟨[], 0⟩ =
      ⟨[((0 + 65534) % 65536, 0)], (0 + 65534 + 1) % 65536⟩ := by
    rw [show List.replicate 65535 (0:Nat) = 0 :: List.replicate 65534 0 from rfl,
      List.foldl_cons]
    rw [show addBufferSize ⟨[], 0⟩ 0 = ⟨[(0 % 65536, 0)], (0 + 1) % 65536⟩ from by decide]
    exact runBuffer_zeros 65534 0
  have h5 : [10, 20].foldl addBufferSize
      ⟨[((0 + 65534) % 65536, 0)], (0 + 65534 + 1) % 65536⟩ =
      ⟨[(65534, 0), (65535, 10), (0, 20)], 1⟩ := by decide
  rw [h2, h3, h5]
  exact ⟨rfl, by decide, rfl⟩

lemma map_insertIdx_sum (l : List QueuePacket) (i : Nat) (p : QueuePacket)
    (h : i ≤ l.length) :
    ((l.insertIdx i p).map QueuePacket.samples).sum =
      (l.map QueuePacket.samples).sum + p.samples := by
  induction l generalizing i with
  | nil =>
    have hi : i = 0 := by simpa using h
    subst hi
    simp
  | cons x xs ih =>
    cases i with
    | zero => simp [List.insertIdx_zero]; omega
    | succ k =>
      have hk : k ≤ xs.length := by simpa using h
      simp only [List.insertIdx_succ_cons, List.map_cons, List.sum_cons, ih k hk]
      omega

lemma decodePacket_buffer (decode : Option QueuePacket → Bool → Except String Nat)
    (q : AudioQueue) (pkt? : Option QueuePacket) (fec : Bool) :
    (exceptState (decodePacket decode q pkt? fec)).packetBuffer = q.packetBuffer
    ∧ (exceptState (decodePacket decode q pkt? fec)).packetBufferSamples =
        q.packetBufferSamples := by
  unfold decodePacket addBufferSizeQ
  rcases pkt? with _ | p <;> dsimp only <;>
    [cases hdec : decode none fec; cases hdec : decode (some p) fec] <;>
    simp only [hdec] <;> dsimp only [exceptState] <;> (try split_ifs) <;>
    exact ⟨rfl, rfl⟩

lemma afterDecode_inv (q : AudioQueue) (h : bufferSamplesInv q) :
    bufferSamplesInv (afterDecode q) := by
  unfold afterDecode
  dsimp only
  split_ifs
  · cases hpb : (q.packetBuffer.drop
        (q.packetBuffer.length - keepCount q.getMinQueueSize 0 q.packetBuffer.reverse)).head? <;>
      dsimp only <;> unfold bufferSamplesInv <;> simp [hpb]
  · exact h
  · exact h

lemma addPacket_inv (q : AudioQueue) (pkt : APacket) (h : bufferSamplesInv q) :
    bufferSamplesInv (exceptState (addPacket q pkt)) := by
  unfold addPacket
  cases hnb : pkt.nbSamples with
  | none => split_ifs <;> exact h
  | some samples =>
    dsimp only
    split_ifs with h1 h2 h3
    · exact h
    · exact h
    · unfold bufferSamplesInv at h ⊢
      dsimp only [exceptState]
      rw [map_insertIdx_sum _ _ _ (Nat.sub_le _ _)]
      rw [show ({ samples := samples, id := pkt.id, whisper := pkt.whisper } :
        QueuePacket).samples = samples from rfl]
      omega
    · unfold bufferSamplesInv at h ⊢
      dsimp only [exceptState]
      rw [map_insertIdx_sum _ _ _ (Nat.sub_le _ _)]
      rw [show ({ samples := samples, id := pkt.id, whisper := pkt.whisper } :
        QueuePacket).samples = samples from rfl]
      omega

lemma decodePacket_inv (decode : Option QueuePacket → Bool → Except String Nat)
    (q : AudioQueue) (pkt? : Option QueuePacket) (fec : Bool)
    (h : bufferSamplesInv q) :
    bufferSamplesInv (exceptState (decodePacket decode q pkt? fec)) := by
  have hb := decodePacket_buffer decode q pkt? fec
  unfold bufferSamplesInv
  rw [hb.1, hb.2]
  exact h

lemma gndLoop_inv (decode : Option QueuePacket → Bool → Except String Nat)
    (len : Nat) : ∀ (fuel : Nat) (q : AudioQueue), bufferSamplesInv q →
    bufferSamplesInv (exceptState (gndLoop decode fuel len q)) := by
  intro fuel
  induction fuel with
  | zero => intro q h; exact h
  | succ n ih =>
    intro q h
    unfold gndLoop
    by_cases hcond : q.decodedLen < q.decodedPos + len
    · rw [if_pos hcond]
      dsimp only
      set q1 := (if q.decodedPos < q.decodedLen then
          if 0 < q.decodedPos then
            { q with decodedLen := q.decodedLen - q.decodedPos, decodedPos := 0 }
          else q
        else { q with decodedLen := 0, decodedPos := 0 }) with hq1
      have h1pb : q1.packetBuffer = q.packetBuffer := by
        rw [hq1]; split_ifs <;> rfl
      have h1ps : q1.packetBufferSamples = q.packetBufferSamples := by
        rw [hq1]; split_ifs <;> rfl
      have h1 : bufferSamplesInv q1 := by
        unfold bufferSamplesInv
        rw [h1pb, h1ps]
        exact h
      split
      · -- the queue ran empty: concealment decode
        split
        · next e heq =>
            have hi := decodePacket_inv decode q1 none false h1
            rw [heq] at hi
            exact hi
        · next q2 heq =>
            have hi := decodePacket_inv decode q1 none false h1
            rw [heq] at hi
            exact ih _ (afterDecode_inv _ hi)
      · next pkt rest hpb =>
        have h3 : bufferSamplesInv
            { q1 with
                packetBuffer := rest
                packetBufferSamples := q1.packetBufferSamples - pkt.samples
                nextId := (q1.nextId + 1) % 65536 } := by
          unfold bufferSamplesInv at h1 ⊢
          rw [hpb] at h1
          simp only [List.map_cons, List.sum_cons] at h1
          dsimp only
          omega
        by_cases hlt : q1.nextId < pkt.id
        · rw [if_pos hlt]
          split
          · next e heq =>
              have hi : bufferSamplesInv (exceptState
                  (if pkt.id = ((q1.nextId + 1) % 65536) then
                    decodePacket decode
                      { q1 with
                          packetBuffer := rest
                          packetBufferSamples := q1.packetBufferSamples - pkt.samples
                          nextId := (q1.nextId + 1) % 65536 } (some pkt) true
                  else
                    decodePacket decode
                      { q1 with
                          packetBuffer := rest
                          packetBufferSamples := q1.packetBufferSamples - pkt.samples
                          nextId := (q1.nextId + 1) % 65536 } none false)) := by
                split_ifs <;> exact decodePacket_inv decode _ _ _ h3
              rw [heq] at hi
              exact hi
          · next q4 heq =>
              have hi : bufferSamplesInv (exceptState
                  (if pkt.id = ((q1.nextId + 1) % 65536) then
                    decodePacket decode
                      { q1 with
                          packetBuffer := rest
                          packetBufferSamples := q1.packetBufferSamples - pkt.samples
                          nextId := (q1.nextId + 1) % 65536 } (some pkt) true
                  else
                    decodePacket decode
                      { q1 with
                          packetBuffer := rest
                          packetBufferSamples := q1.packetBufferSamples - pkt.samples
                          nextId := (q1.nextId + 1) % 65536 } none false)) := by
                split_ifs <;> exact decodePacket_inv decode _ _ _ h3
              rw [heq] at hi
              have h5 : bufferSamplesInv
                  { q4 with
                      packetBufferSamples := q4.packetBufferSamples + pkt.samples
                      packetBuffer := pkt :: q4.packetBuffer } := by
                unfold bufferSamplesInv at hi ⊢
                simp only [List.map_cons, List.sum_cons]
                dsimp only [exceptState] at hi
                omega
              exact ih _ (afterDecode_inv _ h5)
        · rw [if_neg hlt]
          split
          · next e heq =>
              have hi := decodePacket_inv decode
                { q1 with
                    packetBuffer := rest
                    packetBufferSamples := q1.packetBufferSamples - pkt.samples
                    nextId := (q1.nextId + 1) % 65536 } (some pkt) false h3
              rw [heq] at hi
              exact hi
          · next q4 heq =>
              have hi := decodePacket_inv decode
                { q1 with
                    packetBuffer := rest
                    packetBufferSamples := q1.packetBufferSamples - pkt.samples
                    nextId := (q1.nextId + 1) % 65536 } (some pkt) false h3
              rw [heq] at hi
              exact ih _ (afterDecode_inv _ hi)
    · rw [if_neg hcond]
      exact h

lemma getNextData_inv (decode : Option QueuePacket → Bool → Except String Nat)
    (q : AudioQueue) (len fuel : Nat) (h : bufferSamplesInv q) :
    bufferSamplesInv (exceptState (getNextData decode q len fuel)) := by
  unfold getNextData
  split_ifs
  · exact gndLoop_inv decode len fuel _ h
  · exact h
  · exact gndLoop_inv decode len fuel _ h

lemma new_inv (pkt : APacket) (q2 : AudioQueue)
    (h : AudioQueue.new pkt = Except.ok q2) : bufferSamplesInv q2 := by
  unfold AudioQueue.new at h
  cases hnb : pkt.nbSamples with
  | none => rw [hnb] at h; cases h
  | some nb =>
    rw [hnb] at h
    dsimp only at h
    set q1 := addBufferSizeQ
      { nextId := pkt.id
        whispering := false
        packetBuffer := []
        packetBufferSamples := 0
        decodedLen := 0
        decodedPos := 0
        lastPacketSamples := nb * 2
        packetLossNum := 0
        bufferingSamples := 0
        lastBufferSamples := []
        curLastBufferSample := 0
        bufferedForSamples := 0 } 0 with hq1
    have h1 : bufferSamplesInv q1 := by
      rw [hq1]
      unfold bufferSamplesInv addBufferSizeQ
      rfl
    have h2 := addPacket_inv q1 pkt h1
    cases hadd : addPacket q1 pkt with
    | error e => rw [hadd] at h; cases h
    | ok q3 =>
      rw [hadd] at h h2
      cases h
      exact h2

/-- C7: after construction, after add_packet (whether it succeeds or fails)
and after get_next_data (whether it succeeds, fails inside a decode, or the
loop model runs out of fuel), packet_buffer_samples equals the sum of the
samples fields of the packets in packet_buffer. The Opus decoder is an
arbitrary oracle. -/
theorem c7_buffer_samples_invariant
    (decode : Option QueuePacket → Bool → Except String Nat)
    (pkt : APacket) (q : AudioQueue) (len fuel : Nat)
    (hq : bufferSamplesInv q) :
    (∀ q2, AudioQueue.new pkt = Except.ok q2 → bufferSamplesInv q2)
    ∧ bufferSamplesInv (exceptState (addPacket q pkt))
    ∧ bufferSamplesInv (exceptState (getNextData decode q len fuel)) :=
  ⟨fun q2 h => new_inv pkt q2 h, addPacket_inv q pkt hq,
    getNextData_inv decode q len fuel hq⟩

/-- Witness for C7 on the empty queue with a trivial decoder. -/
theorem c7_buffer_samples_invariant_witness :
    (∀ q2, AudioQueue.new pktOk = Except.ok q2 → bufferSamplesInv q2)
    ∧ bufferSamplesInv (exceptState (addPacket qEmpty pktOk))
    ∧ bufferSamplesInv
        (exceptState (getNextData (fun _ _ => Except.ok 480) qEmpty 960 3)) :=
  c7_buffer_samples_invariant (fun _ _ => Except.ok 480) pktOk qEmpty 960 3
    (by decide)

/-- C8 (amended): with parseable Opus metadata, add_packet fails with
"queue full" exactly when the buffer already holds at least 50 packets; it
fails with "too late" exactly when the buffer is NOT full and
(id - next_id) mod 2^16 > 50 (the queue-full check runs first, so when both
conditions hold the error is "queue full" — see the counterexample); and on
either failure the queue state is unchanged. -/
theorem c8_add_packet_error_conditions (q : AudioQueue) (pkt : APacket)
    (samples : Nat) (hnb : pkt.nbSamples = some samples) :
    (addPacket q pkt = Except.error ("Audio queue is full, dropping", q) ↔
      50 ≤ q.packetBuffer.length)
    ∧ (addPacket q pkt = Except.error ("Audio packet is too late, dropping", q) ↔
      (q.packetBuffer.length < 50 ∧ 50 < u16wsub pkt.id q.nextId))
    ∧ (∀ e q1, addPacket q pkt = Except.error (e, q1) → q1 = q) := by
  have hss : ("Audio queue is full, dropping" : String) ≠
      "Audio packet is too late, dropping" := by decide
  unfold addPacket
  rw [hnb]
  dsimp only
  by_cases h1 : 50 ≤ q.packetBuffer.length
  · rw [if_pos h1]
    refine ⟨⟨fun _ => h1, fun _ => rfl⟩, ⟨?_, ?_⟩, ?_⟩
    · intro he
      injection he with hpair
      injection hpair with hs _
      exact absurd hs hss
    · rintro ⟨hlen, -⟩
      exact absurd h1 (by omega)
    · intro e q1 he
      injection he with hpair
      injection hpair with _ hq
      exact hq.symm
  · rw [if_neg h1]
    by_cases h2 : 50 < u16wsub pkt.id q.nextId
    · rw [if_pos h2]
      refine ⟨⟨?_, ?_⟩, ⟨fun _ => ⟨by omega, h2⟩, fun _ => rfl⟩, ?_⟩
      · intro he
        injection he with hpair
        injection hpair with hs _
        exact absurd hs.symm hss
      · intro hc
        exact absurd hc h1
      · intro e q1 he
        injection he with hpair
        injection hpair with _ hq
        exact hq.symm
    · rw [if_neg h2]
      refine ⟨⟨?_, ?_⟩, ⟨?_, ?_⟩, ?_⟩
      · intro he
        exact Except.noConfusion he
      · intro hc
        exact absurd hc h1
      · intro he
        exact Except.noConfusion he
      · rintro ⟨-, hc⟩
        exact absurd hc h2
      · intro e q1 he
        exact Except.noConfusion he

/-- Witness for C8 (amended): a full queue rejects with "queue full" and
leaves the state unchanged. -/
theorem c8_add_packet_error_conditions_witness :
    addPacket qFull50 pktOk = Except.error ("Audio queue is full, dropping", qFull50) :=
  (c8_add_packet_error_conditions qFull50 pktOk 480 rfl).1.mpr (by decide)

/-- C8 counterexample: when the buffer is full AND the packet is late, the
queue-full check wins, so "fails with too late exactly when
(id - next_id) mod 2^16 > 50" is false as stated: here the wrap distance is
100 > 50, yet the error is "queue full". -/
theorem c8_too_late_iff_counterexample :
    addPacket qFull50 pktLate = Except.error ("Audio queue is full, dropping", qFull50)
    ∧ 50 < u16wsub pktLate.id qFull50.nextId
    ∧ ("Audio queue is full, dropping" : String) ≠
        "Audio packet is too late, dropping" := by
  refine ⟨rfl, by decide, by decide⟩

/-- C10: an empty-payload Opus packet for a client without a queue is a
complete no-op: Ok(()) and the handler — queues, talkers_changed,
avg_buffer_samples — is returned unchanged. -/
theorem c10_empty_packet_unknown_client_noop {Id : Type} [DecidableEq Id]
    (h : AudioHandler Id) (cid : Id) (pkt : APacket)
    (hcodec : pkt.codec = Codec.OpusVoice ∨ pkt.codec = Codec.OpusMusic)
    (hempty : pkt.empty = true)
    (hnone : lookupQ h.queues cid = none) :
    handlePacket h cid pkt = Except.ok h := by
  unfold handlePacket
  rw [if_neg (by rcases hcodec with hc | hc <;> simp [hc])]
  rw [hnone]
  simp [hempty]

/-- Witness for C10 on the empty handler. -/
theorem c10_empty_packet_unknown_client_noop_witness :
    handlePacket hNoQueues 0 pktEmpty = Except.ok hNoQueues :=
  c10_empty_packet_unknown_client_noop hNoQueues 0 pktEmpty (Or.inl rfl) rfl rfl

end Ts
